import Mathlib

/-!
Shallow embedding of the bga-stats import pipeline
(backend/services/import_service.py, backend/parsers/*, backend/models.py).

Python string primitives (`str.strip`, `str.split`, `int(...)`, `str.isdigit`,
substring containment) are modelled on `List Char`; parsers and the import
service are translated function-by-function.  The relational store is a record
of per-table lists; surrogate keys are drawn from one monotone counter (only
freshness and uniqueness of the autoincrement keys matter to the properties
proved here).
-/

set_option maxHeartbeats 1000000
set_option maxRecDepth 4000

namespace BgaStats

/-- ASCII whitespace stripped by Python's `str.strip()`. -/
def pyIsSpace (c : Char) : Bool :=
  c == ' ' || c == '\t' || c == '\n' || c == Char.ofNat 13 ||
    c == Char.ofNat 11 || c == Char.ofNat 12

/-- Python `s.strip()`. -/
def pyStrip (cs : List Char) : List Char :=
  ((cs.dropWhile pyIsSpace).reverse.dropWhile pyIsSpace).reverse

def pySplitAux (sep : Char) : List Char → List Char → List (List Char)
  | [], acc => [acc.reverse]
  | c :: cs, acc =>
    if c = sep then acc.reverse :: pySplitAux sep cs []
    else pySplitAux sep cs (c :: acc)

/-- Python `s.split(sep)` for a one-character separator: no collapsing,
`"".split(sep) = [""]`. -/
def pySplit (sep : Char) (cs : List Char) : List (List Char) :=
  pySplitAux sep cs []

/-- Grammar accepted by Python `int` after the sign: digits with single
underscores strictly between digit groups. -/
def ugAfterDigit : List Char → Bool
  | [] => true
  | '_' :: cs =>
    match cs with
    | [] => false
    | c :: cs2 => c.isDigit && ugAfterDigit cs2
  | c :: cs => c.isDigit && ugAfterDigit cs

def underscoreDigitsOk : List Char → Bool
  | [] => false
  | c :: cs => c.isDigit && ugAfterDigit cs

def digitsToNat (cs : List Char) : Nat :=
  cs.foldl (fun a c => a * 10 + (c.toNat - 48)) 0

/-- Python `int(s)`: strip whitespace, optional sign, digit groups. -/
def pyInt? (cs : List Char) : Option Int :=
  let t := pyStrip cs
  match t with
  | '-' :: rest =>
    if underscoreDigitsOk rest then
      some (-(digitsToNat (rest.filter fun c => !(c == '_')) : Int))
    else none
  | '+' :: rest =>
    if underscoreDigitsOk rest then
      some ((digitsToNat (rest.filter fun c => !(c == '_')) : Int))
    else none
  | _ =>
    if underscoreDigitsOk t then
      some ((digitsToNat (t.filter fun c => !(c == '_')) : Int))
    else none

/-- Python `s.isdigit()` restricted to ASCII. -/
def pyIsDigit (cs : List Char) : Bool :=
  !cs.isEmpty && cs.all fun c => c.isDigit

def startsWithL : List Char → List Char → Bool
  | [], _ => true
  | _ :: _, [] => false
  | a :: as, b :: bs => a == b && startsWithL as bs

/-- Python `needle in haystack` (substring containment). -/
def containsSub (needle : List Char) : List Char → Bool
  | [] => needle.isEmpty
  | c :: rest => startsWithL needle (c :: rest) || containsSub needle rest

def listToStr (cs : List Char) : String := ⟨cs⟩

/-- A single apostrophe, used by the Python error messages. -/
def qc : String := String.singleton (Char.ofNat 39)

/-- `backend/parsers/exceptions.py`: ValidationError / ParseError. -/
inductive ParserError where
  | validation : String → ParserError
  | parse : String → ParserError
deriving DecidableEq

instance instDecEqExcept {ε α : Type} [DecidableEq ε] [DecidableEq α] :
    DecidableEq (Except ε α)
  | .error a, .error b =>
    decidable_of_iff (a = b) ⟨congrArg Except.error, fun h => by injection h⟩
  | .error _, .ok _ => isFalse fun h => Except.noConfusion h
  | .ok _, .error _ => isFalse fun h => Except.noConfusion h
  | .ok a, .ok b =>
    decidable_of_iff (a = b) ⟨congrArg Except.ok, fun h => by injection h⟩

/-! ## Player-stats parser (backend/parsers/player_stats_parser.py) -/

structure GameStatData where
  game_name : String
  elo : Option String
  rank : Option String
  played : Int
  won : Int
deriving DecidableEq

structure PlayerData where
  name : String
  bga_player_id : Int
  xp : Option Int
  karma : Option Int
  matches_total : Option Int
  wins_total : Option Int
  abandoned : Option Int
  timeout : Option Int
  recent_matches : Option Int
  last_seen_days : Option Int
  game_stats : List GameStatData
deriving DecidableEq

/-- Fresh player entry created when a platform id is first seen. -/
def freshPlayer (name : String) (i : Int) : PlayerData :=
  ⟨name, i, none, none, none, none, none, none, none, none, []⟩

def col (cols : List (List Char)) (i : Nat) : List Char := cols.getD i []

/-- Message of Python `int(s)` failure (`ValueError`). -/
def intErrMsg (cs : List Char) : String :=
  "invalid literal for int() with base 10: " ++ qc ++ listToStr cs ++ qc

/-- `_parse_xp_row`. -/
def parseXpRow (p : PlayerData) (cols : List (List Char)) :
    Except String PlayerData :=
  if cols.length ≠ 7 then .error "XP row must have exactly 7 columns"
  else
    match pyInt? (col cols 3), pyInt? (col cols 4),
        pyInt? (col cols 5), pyInt? (col cols 6) with
    | some a, some b, some c, some d =>
      .ok { p with xp := some a, karma := some b,
                   matches_total := some c, wins_total := some d }
    | _, _, _, _ =>
      .error ("XP row has invalid numeric value: " ++ xpFirstBad cols)
where
  xpFirstBad (cols : List (List Char)) : String :=
    if pyInt? (col cols 3) = none then intErrMsg (col cols 3)
    else if pyInt? (col cols 4) = none then intErrMsg (col cols 4)
    else if pyInt? (col cols 5) = none then intErrMsg (col cols 5)
    else intErrMsg (col cols 6)

/-- `_parse_recent_games_row`. -/
def parseRecentRow (p : PlayerData) (cols : List (List Char)) :
    Except String PlayerData :=
  if cols.length ≠ 7 then .error "Recent games row must have exactly 7 columns"
  else
    match pyInt? (col cols 3), pyInt? (col cols 4),
        pyInt? (col cols 5), pyInt? (col cols 6) with
    | some a, some b, some c, some d =>
      .ok { p with abandoned := some a, timeout := some b,
                   recent_matches := some c, last_seen_days := some d }
    | _, _, _, _ =>
      .error ("Recent games row has invalid numeric value: " ++ rgFirstBad cols)
where
  rgFirstBad (cols : List (List Char)) : String :=
    if pyInt? (col cols 3) = none then intErrMsg (col cols 3)
    else if pyInt? (col cols 4) = none then intErrMsg (col cols 4)
    else intErrMsg (col cols 6)

/-- `_parse_game_row`. -/
def parseGameRow (p : PlayerData) (cols : List (List Char)) :
    Except String PlayerData :=
  if cols.length ≠ 7 then .error "Game row must have exactly 7 columns"
  else
    let gname := pyStrip (col cols 2)
    if gname = [] then .error "Game name is empty"
    else
      let elo := pyStrip (col cols 3)
      let rank := pyStrip (col cols 4)
      match pyInt? (col cols 5), pyInt? (col cols 6) with
      | some pl, some wn =>
        .ok { p with game_stats := p.game_stats ++
          [⟨listToStr gname,
            (if elo = [] then none else some (listToStr elo)),
            (if rank = [] then none else some (listToStr rank)), pl, wn⟩] }
      | _, _ =>
        .error ("Game row has invalid played/won value: " ++
          (if pyInt? (col cols 5) = none then intErrMsg (col cols 5)
           else intErrMsg (col cols 6)))

def lookupPlayer (ps : List PlayerData) (i : Int) : Option PlayerData :=
  ps.find? fun p => p.bga_player_id == i

/-- Replace the entry keyed by `i` (Python dict assignment to an existing key
keeps its insertion position). -/
def putPlayer (ps : List PlayerData) (i : Int) (p : PlayerData) :
    List PlayerData :=
  ps.map fun r => if r.bga_player_id = i then p else r

/-- Body of the row loop of `parse_player_stats` for one raw line. -/
def psStep (ps : List PlayerData) (k : Nat) (line : List Char) :
    Except ParserError (List PlayerData) :=
  let t := pyStrip line
  if t = [] then .ok ps
  else
    let cols := pySplit '\t' t
    if cols.length < 7 then
      .error (.parse ("Line " ++ toString k ++
        ": Expected at least 7 columns, got " ++ toString cols.length))
    else
      let pname := pyStrip (col cols 0)
      if pname = [] then
        .error (.parse ("Line " ++ toString k ++ ": Player name is empty"))
      else
        match pyInt? (pyStrip (col cols 1)) with
        | none =>
          .error (.parse ("Line " ++ toString k ++
            ": Player ID must be numeric, got " ++ qc ++
            listToStr (col cols 1) ++ qc))
        | some bid =>
          let ps1 :=
            if lookupPlayer ps bid = none then
              ps ++ [freshPlayer (listToStr pname) bid]
            else ps
          let p := (lookupPlayer ps1 bid).getD (freshPlayer (listToStr pname) bid)
          let rt := pyStrip (col cols 2)
          let res :=
            if rt = "XP".data then parseXpRow p cols
            else if rt = "Recent games".data then parseRecentRow p cols
            else parseGameRow p cols
          match res with
          | .error m => .error (.parse ("Line " ++ toString k ++ ": " ++ m))
          | .ok p2 => .ok (putPlayer ps1 bid p2)

/-- The row loop of `parse_player_stats`. -/
def psFold (ps : List PlayerData) (k : Nat) :
    List (List Char) → Except ParserError (List PlayerData)
  | [] => .ok ps
  | l :: ls =>
    match psStep ps k l with
    | .error e => .error e
    | .ok ps2 => psFold ps2 (k + 1) ls

def missingXpMsg (p : PlayerData) : String :=
  "Player " ++ qc ++ p.name ++ qc ++ " (ID: " ++ toString p.bga_player_id ++
    ") missing XP row"

def missingRecentMsg (p : PlayerData) : String :=
  "Player " ++ qc ++ p.name ++ qc ++ " (ID: " ++ toString p.bga_player_id ++
    ") missing Recent games row"

/-- The final validation loop of `parse_player_stats`: first offending player,
with the XP check made before the Recent-games check. -/
def firstMissing : List PlayerData → Option PlayerData
  | [] => none
  | p :: rest =>
    if p.xp = none then some p
    else if p.abandoned = none then some p
    else firstMissing rest

def missingMsg (p : PlayerData) : String :=
  if p.xp = none then missingXpMsg p else missingRecentMsg p

/-- `parse_player_stats(raw_text)`. -/
def parse_player_stats (raw : String) :
    Except ParserError (List PlayerData) :=
  if pyStrip raw.data = [] then .error (.validation "Input text is empty")
  else
    match psFold [] 1 (pySplit '\n' (pyStrip raw.data)) with
    | .error e => .error e
    | .ok ps =>
      match firstMissing ps with
      | some p => .error (.validation (missingMsg p))
      | none => .ok ps

/-! ## Game-list parser (backend/parsers/game_list_parser.py) -/

structure GameData where
  bga_game_id : Int
  name : String
  display_name : String
  status : String
  premium : Bool
deriving DecidableEq

def glStep (k : Nat) (line : List Char) :
    Except ParserError (Option GameData) :=
  let t := pyStrip line
  if t = [] then .ok none
  else
    let cols := pySplit '\t' t
    if cols.length ≠ 5 then
      .error (.parse ("Line " ++ toString k ++ ": Expected 5 columns, got " ++
        toString cols.length))
    else
      match pyInt? (pyStrip (col cols 0)) with
      | none =>
        .error (.parse ("Line " ++ toString k ++
          ": BGA game ID must be numeric, got " ++ qc ++
          listToStr (col cols 0) ++ qc))
      | some gid =>
        let status := pyStrip (col cols 3)
        if status ≠ "alpha".data ∧ status ≠ "beta".data ∧
            status ≠ "published".data then
          .error (.parse ("Line " ++ toString k ++
            ": Status must be alpha, beta, or published, got " ++ qc ++
            listToStr status ++ qc))
        else
          let prem := pyStrip (col cols 4)
          if prem ≠ "0".data ∧ prem ≠ "1".data then
            .error (.parse ("Line " ++ toString k ++
              ": Premium flag must be 0 or 1, got " ++ qc ++
              listToStr prem ++ qc))
          else
            .ok (some ⟨gid, listToStr (pyStrip (col cols 1)),
              listToStr (pyStrip (col cols 2)), listToStr status,
              prem = "1".data⟩)

def glFold (acc : List GameData) (k : Nat) :
    List (List Char) → Except ParserError (List GameData)
  | [] => .ok acc
  | l :: ls =>
    match glStep k l with
    | .error e => .error e
    | .ok none => glFold acc (k + 1) ls
    | .ok (some g) => glFold (acc ++ [g]) (k + 1) ls

/-- `parse_game_list(raw_text)`. -/
def parse_game_list (raw : String) : Except ParserError (List GameData) :=
  if pyStrip raw.data = [] then .error (.validation "Input text is empty")
  else
    match glFold [] 1 (pySplit '\n' (pyStrip raw.data)) with
    | .error e => .error e
    | .ok gs =>
      if gs = [] then .error (.validation "No valid game data found")
      else .ok gs

/-! ## Move-stats parser (backend/parsers/move_stats_parser.py) -/

structure MoveData where
  move_no : String
  datetime_local : String
  datetime_excel : String
  player_name : String
  remaining_time : String
deriving DecidableEq

structure MoveDoc where
  table_id : Int
  game_name : String
  moves : List MoveData
deriving DecidableEq

/-- Loop state of `parse_move_stats`: table id and game name seen so far,
collected moves. -/
structure MsState where
  table_id : Option Int
  game_name : Option (List Char)
  moves : List MoveData
deriving DecidableEq

def msStep (st : MsState) (k : Nat) (line : List Char) :
    Except ParserError MsState :=
  let t := pyStrip line
  if t = [] then .ok st
  else
    let cols := pySplit ';' t
    if cols.length ≠ 7 then
      .error (.parse ("Line " ++ toString k ++ ": Expected 7 columns, got " ++
        toString cols.length))
    else
      match pyInt? (pyStrip (col cols 0)) with
      | none =>
        .error (.parse ("Line " ++ toString k ++
          ": Table ID must be numeric, got " ++ qc ++
          listToStr (col cols 0) ++ qc))
      | some tid =>
        match st.table_id with
        | some t0 =>
          if t0 ≠ tid then
            .error (.parse ("Line " ++ toString k ++ ": Mixed table IDs found (" ++
              toString t0 ++ " and " ++ toString tid ++ ")"))
          else msStepName { st with table_id := some tid } k cols
        | none => msStepName { st with table_id := some tid } k cols
where
  msStepName (st : MsState) (k : Nat) (cols : List (List Char)) :
      Except ParserError MsState :=
    let gname := pyStrip (col cols 1)
    match st.game_name with
    | some g0 =>
      if g0 ≠ gname then
        .error (.parse ("Line " ++ toString k ++ ": Mixed game names found (" ++
          qc ++ listToStr g0 ++ qc ++ " and " ++ qc ++ listToStr gname ++ qc ++ ")"))
      else msStepMove st k cols
    | none => msStepMove { st with game_name := some gname } k cols
  msStepMove (st : MsState) (k : Nat) (cols : List (List Char)) :
      Except ParserError MsState :=
    let pname := pyStrip (col cols 5)
    if pname = [] then
      .error (.parse ("Line " ++ toString k ++ ": Player name is empty"))
    else
      .ok { st with moves := st.moves ++
        [⟨listToStr (pyStrip (col cols 2)), listToStr (pyStrip (col cols 3)),
          listToStr (pyStrip (col cols 4)), listToStr pname,
          listToStr (pyStrip (col cols 6))⟩] }

def msFold (st : MsState) (k : Nat) :
    List (List Char) → Except ParserError MsState
  | [] => .ok st
  | l :: ls =>
    match msStep st k l with
    | .error e => .error e
    | .ok st2 => msFold st2 (k + 1) ls

/-- `parse_move_stats(raw_text)`. -/
def parse_move_stats (raw : String) : Except ParserError MoveDoc :=
  if pyStrip raw.data = [] then .error (.validation "Input text is empty")
  else
    match msFold ⟨none, none, []⟩ 1 (pySplit '\n' (pyStrip raw.data)) with
    | .error e => .error e
    | .ok st =>
      if st.moves = [] then .error (.validation "No valid move data found")
      else
        match st.table_id, st.game_name with
        | some tid, some g => .ok ⟨tid, listToStr g, st.moves⟩
        | _, _ => .error (.validation "Could not determine table ID or game name")

/-! ## Tournament-stats parser (backend/parsers/tournament_stats_parser.py) -/

structure TPlayerData where
  name : String
  remaining_time_seconds : Int
  points : Int
deriving DecidableEq

structure TMatchData where
  table_id : Int
  is_timeout : Bool
  progress : Int
  players : List TPlayerData
deriving DecidableEq

structure TournamentData where
  tournament_id : Int
  name : String
  game_name : String
  start_time : String
  end_time : String
  rounds : Int
  round_limit : Int
  total_matches : Int
  timeout_matches : Int
  player_count : Int
  «matches» : List TMatchData
deriving DecidableEq

/-- Value computed by `_parse_tournament_summary` when no field fails. -/
def summaryVal (cols : List (List Char)) : Option TournamentData :=
  match pyInt? (col cols 0), pyInt? (col cols 6), pyInt? (col cols 7),
      pyInt? (col cols 8), pyInt? (col cols 9), pyInt? (col cols 10) with
  | some tid, some rounds, some rl, some tm, some tmo, some pc =>
    some ⟨tid, listToStr (pyStrip (col cols 1)), listToStr (pyStrip (col cols 3)),
      listToStr (pyStrip (col cols 4)), listToStr (pyStrip (col cols 5)),
      rounds, rl, tm, tmo, pc, []⟩
  | _, _, _, _, _, _ => none

def summaryBadLit (cols : List (List Char)) : List Char :=
  if pyInt? (col cols 0) = none then col cols 0
  else if pyInt? (col cols 6) = none then col cols 6
  else if pyInt? (col cols 7) = none then col cols 7
  else if pyInt? (col cols 8) = none then col cols 8
  else if pyInt? (col cols 9) = none then col cols 9
  else col cols 10

/-- Repeating (name, time, points) triples of a match row. -/
def parseTriples : List (List Char) → Except (List Char) (List TPlayerData)
  | [] => .ok []
  | a :: b :: c :: rest =>
    match pyInt? b with
    | none => .error b
    | some rt =>
      match pyInt? c with
      | none => .error c
      | some pts =>
        match parseTriples rest with
        | .error l => .error l
        | .ok ps => .ok (⟨listToStr (pyStrip a), rt, pts⟩ :: ps)
  | l => .error (col l 0)

/-- `_parse_tournament_match` (outcome; its raised messages are rebuilt in
`tsStep`). -/
def matchRowVal (cols : List (List Char)) :
    Except (Option (List Char)) TMatchData :=
  match pyInt? (col cols 1) with
  | none => .error (some (col cols 1))
  | some table_id =>
    match pyInt? (col cols 3) with
    | none => .error (some (col cols 3))
    | some progress =>
      let pdata := cols.drop 4
      if pdata.length % 3 ≠ 0 then .error none
      else
        match parseTriples pdata with
        | .error l => .error (some l)
        | .ok ps =>
          .ok ⟨table_id, pyStrip (col cols 2) = "1".data, progress, ps⟩

def lookupT (ts : List TournamentData) (tid : Int) : Option TournamentData :=
  ts.find? fun t => t.tournament_id == tid

/-- Python dict assignment keyed by tournament id (existing keys keep their
insertion position). -/
def putT (ts : List TournamentData) (td : TournamentData) :
    List TournamentData :=
  if lookupT ts td.tournament_id = none then ts ++ [td]
  else ts.map fun t => if t.tournament_id = td.tournament_id then td else t

/-- Body of the row loop of `parse_tournament_stats` (the source also tracks a
`current_tournament_id` variable that it never reads; it is dropped here). -/
def tsStep (ts : List TournamentData) (k : Nat) (line : List Char) :
    Except ParserError (List TournamentData) :=
  let t := pyStrip line
  if t = [] then .ok ts
  else
    let cols := pySplit '\t' t
    if cols.length < 4 then
      .error (.parse ("Line " ++ toString k ++
        ": Expected at least 4 columns, got " ++ toString cols.length))
    else
      match pyInt? (pyStrip (col cols 0)) with
      | none =>
        .error (.parse ("Line " ++ toString k ++
          ": Tournament ID must be numeric, got " ++ qc ++
          listToStr (col cols 0) ++ qc))
      | some tid =>
        if cols.length = 11 then
          match summaryVal cols with
          | none =>
            .error (.parse ("Line " ++ toString k ++
              ": Failed to parse tournament summary: " ++
              intErrMsg (summaryBadLit cols)))
          | some td => .ok (putT ts td)
        else
          match lookupT ts tid with
          | none =>
            .error (.parse ("Line " ++ toString k ++
              ": Match row found before tournament summary"))
          | some td =>
            match matchRowVal cols with
            | .error none =>
              .error (.parse ("Line " ++ toString k ++
                ": Player data columns must be multiple of 3"))
            | .error (some l) =>
              .error (.parse ("Line " ++ toString k ++
                ": Failed to parse match row: " ++ intErrMsg l))
            | .ok md =>
              .ok (putT ts { td with «matches» := td.«matches» ++ [md] })

def tsFold (ts : List TournamentData) (k : Nat) :
    List (List Char) → Except ParserError (List TournamentData)
  | [] => .ok ts
  | l :: ls =>
    match tsStep ts k l with
    | .error e => .error e
    | .ok ts2 => tsFold ts2 (k + 1) ls

/-- `parse_tournament_stats(raw_text)`. -/
def parse_tournament_stats (raw : String) :
    Except ParserError (List TournamentData) :=
  if pyStrip raw.data = [] then .error (.validation "Input text is empty")
  else
    match tsFold [] 1 (pySplit '\n' (pyStrip raw.data)) with
    | .error e => .error e
    | .ok ts =>
      if ts = [] then .error (.validation "No valid tournament data found")
      else .ok ts

/-! ## Format detector (import_service.detect_import_type) -/

def countTabs (cs : List Char) : Nat := (cs.filter fun c => c == '\t').length

/-- `detect_import_type(raw_text)`. -/
def detect_import_type (raw : String) : String :=
  let cs := raw.data
  if pyStrip cs = [] then "unknown"
  else if containsSub "\tXP\t".data cs ∧ containsSub "\tRecent games\t".data cs then
    "player_stats"
  else if cs.contains ';' ∧ ¬ cs.contains '\t' then "move_stats"
  else if containsSub "\t\t".data cs ∧
      ((pySplit '\n' cs).any fun l =>
        decide (10 ≤ countTabs l) &&
          (pyStrip (col (pySplit '\t' l) 2) = "0".data ∨
           pyStrip (col (pySplit '\t' l) 2) = "1".data)) then
    "tournament_stats"
  else
    let first := pySplit '\t' (col (pySplit '\n' (pyStrip cs)) 0)
    if first.length = 5 ∧ pyIsDigit (pyStrip (col first 0)) ∧
        (pyStrip (col first 4) = "0".data ∨ pyStrip (col first 4) = "1".data) then
      "game_list"
    else "unknown"

/-! ## Relational store (backend/models.py) -/

structure PlayerRec where
  id : Nat
  bga_player_id : Int
  name : String
  xp : Option Int
  karma : Option Int
  matches_total : Option Int
  wins_total : Option Int
  abandoned : Option Int
  timeout : Option Int
  recent_matches : Option Int
  last_seen_days : Option Int
deriving DecidableEq

structure GameRec where
  id : Nat
  bga_game_id : Int
  name : String
  display_name : String
  status : String
  premium : Bool
deriving DecidableEq

structure StatRec where
  id : Nat
  player_id : Nat
  game_id : Nat
  elo : Option String
  rank : Option String
  played : Int
  won : Int
deriving DecidableEq

structure MatchRec where
  id : Nat
  bga_table_id : Int
  game_name : String
deriving DecidableEq

structure MoveRec where
  id : Nat
  match_id : Nat
  move_no : String
  player_name : String
  datetime_local : String
  datetime_excel : String
  remaining_time : String
deriving DecidableEq

structure TournamentRec where
  id : Nat
  bga_tournament_id : Int
  name : String
  game_name : String
  start_time : String
  end_time : String
  rounds : Int
  round_limit : Int
  total_matches : Int
  timeout_matches : Int
  player_count : Int
deriving DecidableEq

structure TMatchRec where
  id : Nat
  tournament_id : Nat
  bga_table_id : Int
  is_timeout : Bool
  progress : Int
deriving DecidableEq

structure TMPlayerRec where
  id : Nat
  tournament_match_id : Nat
  player_name : String
  remaining_time_seconds : Int
  points : Int
deriving DecidableEq

/-- The committed relational state.  `nextId` is the autoincrement counter for
surrogate keys (a single counter serves all tables: only freshness matters). -/
structure Store where
  nextId : Nat
  players : List PlayerRec
  games : List GameRec
  stats : List StatRec
  «matches» : List MatchRec
  moves : List MoveRec
  tournaments : List TournamentRec
  tournament_matches : List TMatchRec
  tournament_match_players : List TMPlayerRec
deriving DecidableEq

def emptyStore : Store := ⟨1, [], [], [], [], [], [], [], []⟩

/-! ## import_service.import_player_stats -/

structure PIC where
  players_created : Nat
  players_updated : Nat
  games_created : Nat
  game_stats_created : Nat
  game_stats_updated : Nat
deriving DecidableEq

/-- One step of the running minimum over the negative ids. -/
def negStep (acc : Option Int) (x : Int) : Option Int :=
  if x < 0 then
    match acc with
    | none => some x
    | some m => some (if x < m then x else m)
  else acc

/-- Minimum of the negative ids in the list (the
`filter(bga_game_id < 0).order_by(...).first()` query). -/
def negMin (l : List Int) : Option Int :=
  l.foldl negStep none

/-- Starting placeholder id: one less than the least placeholder in the store,
`-1` when there is none. -/
def nextPlaceholder0 (s : Store) : Int :=
  match negMin (s.games.map fun g => g.bga_game_id) with
  | some m => m - 1
  | none => -1

def firstPlayerRec (s : Store) (i : Int) : Option PlayerRec :=
  s.players.find? fun r => r.bga_player_id == i

def firstGameRec (s : Store) (n : String) : Option GameRec :=
  s.games.find? fun g => g.name == n

def firstStatRec (s : Store) (pid gid : Nat) : Option StatRec :=
  s.stats.find? fun st => st.player_id == pid && st.game_id == gid

def playerRecOf (i : Nat) (p : PlayerData) : PlayerRec :=
  ⟨i, p.bga_player_id, p.name, p.xp, p.karma, p.matches_total, p.wins_total,
    p.abandoned, p.timeout, p.recent_matches, p.last_seen_days⟩

def updPlayerRec (r : PlayerRec) (p : PlayerData) : PlayerRec :=
  { r with name := p.name, xp := p.xp, karma := p.karma,
           matches_total := p.matches_total, wins_total := p.wins_total,
           abandoned := p.abandoned, timeout := p.timeout,
           recent_matches := p.recent_matches,
           last_seen_days := p.last_seen_days }

/-- Upsert of one `Player` row; returns the row's surrogate id and whether it
was created. -/
def upsertPlayer (s : Store) (p : PlayerData) : Store × Nat × Bool :=
  match firstPlayerRec s p.bga_player_id with
  | some r =>
    ({ s with players := s.players.map fun x =>
        if x.id = r.id then updPlayerRec x p else x }, r.id, false)
  | none =>
    ({ s with nextId := s.nextId + 1,
              players := s.players ++ [playerRecOf s.nextId p] },
     s.nextId, true)

/-- The placeholder `Game` row created for an unknown game name. -/
def placeholderGame (s : Store) (next : Int) (gname : String) : GameRec :=
  ⟨s.nextId, next, gname, gname, "unknown", false⟩

/-- Game lookup by name with placeholder creation; returns the game's surrogate
id, the next placeholder id, and how many games were created (0 or 1). -/
def upsertGame (s : Store) (next : Int) (gname : String) :
    Store × Nat × Int × Nat :=
  match firstGameRec s gname with
  | some g => (s, g.id, next, 0)
  | none =>
    ({ s with nextId := s.nextId + 1,
              games := s.games ++ [placeholderGame s next gname] },
     s.nextId, next - 1, 1)

def statRecOf (i pid gid : Nat) (g : GameStatData) : StatRec :=
  ⟨i, pid, gid, g.elo, g.rank, g.played, g.won⟩

/-- Upsert of one `PlayerGameStat` row; the Bool is `true` when created. -/
def upsertStat (s : Store) (pid gid : Nat) (g : GameStatData) : Store × Bool :=
  match firstStatRec s pid gid with
  | some st =>
    ({ s with stats := s.stats.map fun r =>
        if r.id = st.id then
          { r with elo := g.elo, rank := g.rank, played := g.played, won := g.won }
        else r }, false)
  | none =>
    ({ s with nextId := s.nextId + 1,
              stats := s.stats ++ [statRecOf s.nextId pid gid g] }, true)

/-- Inner loop of `import_player_stats` over one player's game stats; returns
(store, next placeholder, games created, stats created, stats updated). -/
def gsLoop (s : Store) (next : Int) (pid : Nat) :
    List GameStatData → Store × Int × Nat × Nat × Nat
  | [] => (s, next, 0, 0, 0)
  | g :: rest =>
    let r1 := upsertGame s next g.game_name
    let r2 := upsertStat r1.1 pid r1.2.1 g
    let r3 := gsLoop r2.1 r1.2.2.1 pid rest
    (r3.1, r3.2.1, r1.2.2.2 + r3.2.2.1,
     (if r2.2 then 1 else 0) + r3.2.2.2.1,
     (if r2.2 then 0 else 1) + r3.2.2.2.2)

/-- Outer loop of `import_player_stats` over players. -/
def playersLoop (s : Store) (next : Int) : List PlayerData → Store × Int × PIC
  | [] => (s, next, ⟨0, 0, 0, 0, 0⟩)
  | p :: rest =>
    let r1 := upsertPlayer s p
    let r2 := gsLoop r1.1 next r1.2.1 p.game_stats
    let r3 := playersLoop r2.1 r2.2.1 rest
    (r3.1, r3.2.1,
     ⟨(if r1.2.2 then 1 else 0) + r3.2.2.players_created,
      (if r1.2.2 then 0 else 1) + r3.2.2.players_updated,
      r2.2.2.1 + r3.2.2.games_created,
      r2.2.2.2.1 + r3.2.2.game_stats_created,
      r2.2.2.2.2 + r3.2.2.game_stats_updated⟩)

/-- `import_player_stats(session, parsed_data)`. -/
def import_player_stats (s : Store) (pd : List PlayerData) : Store × PIC :=
  let r := playersLoop s (nextPlaceholder0 s) pd
  (r.1, r.2.2)

/-! ## import_service.import_game_list -/

structure GLC where
  games_created : Nat
  games_updated : Nat
deriving DecidableEq

def firstGameByBga (s : Store) (i : Int) : Option GameRec :=
  s.games.find? fun g => g.bga_game_id == i

def import_game_list (s : Store) : List GameData → Store × GLC
  | [] => (s, ⟨0, 0⟩)
  | g :: rest =>
    let s1 : Store × Bool :=
      match firstGameByBga s g.bga_game_id with
      | some r =>
        ({ s with games := s.games.map fun x =>
            if x.id = r.id then
              { x with name := g.name, display_name := g.display_name,
                       status := g.status, premium := g.premium }
            else x }, false)
      | none =>
        ({ s with nextId := s.nextId + 1,
                  games := s.games ++
                    [⟨s.nextId, g.bga_game_id, g.name, g.display_name,
                      g.status, g.premium⟩] }, true)
    let r := import_game_list s1.1 rest
    (r.1, ⟨(if s1.2 then 1 else 0) + r.2.games_created,
           (if s1.2 then 0 else 1) + r.2.games_updated⟩)

/-! ## import_service.import_move_stats -/

structure MVC where
  matches_created : Nat
  matches_updated : Nat
  moves_created : Nat
deriving DecidableEq

def firstMatchRec (s : Store) (tid : Int) : Option MatchRec :=
  s.«matches».find? fun m => m.bga_table_id == tid

/-- Append the document's moves for match `mid`, counting them. -/
def addMoves (s : Store) (mid : Nat) : List MoveData → Store × Nat
  | [] => (s, 0)
  | mv :: rest =>
    let s1 : Store :=
      { s with nextId := s.nextId + 1,
               moves := s.moves ++
                 [⟨s.nextId, mid, mv.move_no, mv.player_name,
                   mv.datetime_local, mv.datetime_excel, mv.remaining_time⟩] }
    let r := addMoves s1 mid rest
    (r.1, r.2 + 1)

/-- `import_move_stats(session, parsed_data)`: on update the existing moves of
the match are bulk-deleted, then the document's moves are inserted. -/
def import_move_stats (s : Store) (d : MoveDoc) : Store × MVC :=
  match firstMatchRec s d.table_id with
  | some m0 =>
    let s1 : Store :=
      { s with
        «matches» := s.«matches».map fun m =>
          if m.id = m0.id then { m with game_name := d.game_name } else m,
        moves := s.moves.filter fun mv => !(mv.match_id == m0.id) }
    let r := addMoves s1 m0.id d.moves
    (r.1, ⟨0, 1, r.2⟩)
  | none =>
    let m0 : MatchRec := ⟨s.nextId, d.table_id, d.game_name⟩
    let s1 : Store :=
      { s with nextId := s.nextId + 1, «matches» := s.«matches» ++ [m0] }
    let r := addMoves s1 m0.id d.moves
    (r.1, ⟨1, 0, r.2⟩)

/-! ## import_service.import_tournament_stats -/

structure TSC where
  tournaments_created : Nat
  tournaments_updated : Nat
  tournament_matches_created : Nat
deriving DecidableEq

def firstTournamentRec (s : Store) (tid : Int) : Option TournamentRec :=
  s.tournaments.find? fun t => t.bga_tournament_id == tid

def addTMPlayers (s : Store) (mid : Nat) : List TPlayerData → Store
  | [] => s
  | p :: rest =>
    addTMPlayers
      { s with nextId := s.nextId + 1,
               tournament_match_players := s.tournament_match_players ++
                 [⟨s.nextId, mid, p.name, p.remaining_time_seconds, p.points⟩] }
      mid rest

/-- Insert the document's matches (and their players) for tournament `tid`. -/
def addTMatches (s : Store) (tid : Nat) : List TMatchData → Store × Nat
  | [] => (s, 0)
  | m :: rest =>
    let mid := s.nextId
    let s1 : Store :=
      { s with nextId := s.nextId + 1,
               tournament_matches := s.tournament_matches ++
                 [⟨mid, tid, m.table_id, m.is_timeout, m.progress⟩] }
    let s2 := addTMPlayers s1 mid m.players
    let r := addTMatches s2 tid rest
    (r.1, r.2 + 1)

/-- `import_tournament_stats(session, parsed_data)`.  On update the source
issues `query(TournamentMatch).filter_by(...).delete()`: a bulk DELETE that
bypasses ORM relationship cascades, and the SQLite engine never enables
`PRAGMA foreign_keys`, so the `ON DELETE CASCADE` declared on
`TournamentMatchPlayer.tournament_match_id` does not fire either — the old
`tournament_match_players` rows survive.  The embedding reproduces that. -/
def import_tournament_stats (s : Store) : List TournamentData → Store × TSC
  | [] => (s, ⟨0, 0, 0⟩)
  | t :: rest =>
    let s1 : Store × Nat × Bool :=
      match firstTournamentRec s t.tournament_id with
      | some r =>
        (({ s with
            tournaments := s.tournaments.map fun x =>
              if x.id = r.id then
                { x with name := t.name, game_name := t.game_name,
                         start_time := t.start_time, end_time := t.end_time,
                         rounds := t.rounds, round_limit := t.round_limit,
                         total_matches := t.total_matches,
                         timeout_matches := t.timeout_matches,
                         player_count := t.player_count }
              else x,
            tournament_matches := s.tournament_matches.filter fun m =>
              !(m.tournament_id == r.id) } : Store), r.id, false)
      | none =>
        (({ s with nextId := s.nextId + 1,
                   tournaments := s.tournaments ++
                     [⟨s.nextId, t.tournament_id, t.name, t.game_name,
                       t.start_time, t.end_time, t.rounds, t.round_limit,
                       t.total_matches, t.timeout_matches, t.player_count⟩] } :
          Store), s.nextId, true)
    let r2 := addTMatches s1.1 s1.2.1 t.«matches»
    let r3 := import_tournament_stats r2.1 rest
    (r3.1, ⟨(if s1.2.2 then 1 else 0) + r3.2.tournaments_created,
            (if s1.2.2 then 0 else 1) + r3.2.tournaments_updated,
            r2.2 + r3.2.tournament_matches_created⟩)

/-! ## import_service.import_data -/

structure ImportResult where
  success : Bool
  import_type : Option String
  results : Option (List (String × Nat))
  error : Option String
  error_type : Option String
deriving DecidableEq

def errorResult (e : ParserError) : ImportResult :=
  match e with
  | .validation m => ⟨false, none, none, some m, some "ValidationError"⟩
  | .parse m => ⟨false, none, none, some m, some "ParseError"⟩

/-- Result of the generic `except Exception` handler: an unexpected fault
during importing is wrapped as ImportError with the original message. -/
def faultResult (m : String) : ImportResult :=
  ⟨false, none, none, some ("Import failed: " ++ m), some "ImportError"⟩

def unsupportedResult (t : String) : ImportResult :=
  ⟨false, none, none, some ("Unsupported import type: " ++ t), some "UnsupportedTypeError"⟩

def okResult (t : String) (pairs : List (String × Nat)) : ImportResult :=
  ⟨true, some t, some pairs, none, none⟩

def playerPairs (c : PIC) : List (String × Nat) :=
  [("players_created", c.players_created), ("players_updated", c.players_updated),
   ("games_created", c.games_created),
   ("game_stats_created", c.game_stats_created),
   ("game_stats_updated", c.game_stats_updated)]

def gamePairs (c : GLC) : List (String × Nat) :=
  [("games_created", c.games_created), ("games_updated", c.games_updated)]

def movePairs (c : MVC) : List (String × Nat) :=
  [("matches_created", c.matches_created), ("matches_updated", c.matches_updated),
   ("moves_created", c.moves_created)]

def tournamentPairs (c : TSC) : List (String × Nat) :=
  [("tournaments_created", c.tournaments_created),
   ("tournaments_updated", c.tournaments_updated),
   ("tournament_matches_created", c.tournament_matches_created)]

/-- Tag resolution at the head of `import_data` (`if not import_type`: both an
absent and an empty tag trigger auto-detection). -/
def resolvedTag (raw : String) (tag : Option String) : String :=
  match tag with
  | none => detect_import_type raw
  | some u => if u = "" then detect_import_type raw else u

/-- The parser invoked for a resolved tag, collapsed to its outcome;
`none` for an unsupported tag. -/
def parseOutcome (t : String) (raw : String) :
    Option (Except ParserError Unit) :=
  if t = "player_stats" then some ((parse_player_stats raw).map fun _ => ())
  else if t = "game_list" then some ((parse_game_list raw).map fun _ => ())
  else if t = "move_stats" then some ((parse_move_stats raw).map fun _ => ())
  else if t = "tournament_stats" then
    some ((parse_tournament_stats raw).map fun _ => ())
  else none

/-- `import_data(raw_text, import_type)`.  The store argument is the committed
state; a rollback returns it unchanged.  `fault` is modelled from the spec:
the storage layer (an external collaborator) may raise an arbitrary exception
with some message while the Importing stage runs; the coordinator's generic
handler rolls back and wraps it as ImportError. -/
def import_data (s : Store) (raw : String) (tag : Option String)
    (fault : Option String) : Store × ImportResult :=
  let t := resolvedTag raw tag
  if t = "player_stats" then
    match parse_player_stats raw with
    | .error e => (s, errorResult e)
    | .ok d =>
      match fault with
      | some m => (s, faultResult m)
      | none =>
        let r := import_player_stats s d
        (r.1, okResult t (playerPairs r.2))
  else if t = "game_list" then
    match parse_game_list raw with
    | .error e => (s, errorResult e)
    | .ok d =>
      match fault with
      | some m => (s, faultResult m)
      | none =>
        let r := import_game_list s d
        (r.1, okResult t (gamePairs r.2))
  else if t = "move_stats" then
    match parse_move_stats raw with
    | .error e => (s, errorResult e)
    | .ok d =>
      match fault with
      | some m => (s, faultResult m)
      | none =>
        let r := import_move_stats s d
        (r.1, okResult t (movePairs r.2))
  else if t = "tournament_stats" then
    match parse_tournament_stats raw with
    | .error e => (s, errorResult e)
    | .ok d =>
      match fault with
      | some m => (s, faultResult m)
      | none =>
        let r := import_tournament_stats s d
        (r.1, okResult t (tournamentPairs r.2))
  else (s, unsupportedResult t)

/-! ## Derived notions used in the claim statements -/

/-- The lines the parsers iterate over. -/
def docLines (raw : String) : List (List Char) := pySplit '\n' (pyStrip raw.data)

/-- Does a (non-blank) line carry platform player id `i` and row type `ty`? -/
def rowFor (i : Int) (ty : List Char) (l : List Char) : Bool :=
  let t := pyStrip l
  !t.isEmpty && decide (pyInt? (pyStrip (col (pySplit '\t' t) 1)) = some i) &&
    decide (pyStrip (col (pySplit '\t' t) 2) = ty)

/-- The document contains a row of type `ty` for player id `i`. -/
def hasRowB (raw : String) (i : Int) (ty : List Char) : Bool :=
  (docLines raw).any (rowFor i ty)

/-- Tab fields of a stripped line. -/
def lineCols (l : List Char) : List (List Char) := pySplit '\t' (pyStrip l)

/-- Column 1 of a line as a platform player id. -/
def lineId? (l : List Char) : Option Int := pyInt? (pyStrip (col (lineCols l) 1))

/-- Column 0 of a line: the player name. -/
def lineName (l : List Char) : String := listToStr (pyStrip (col (lineCols l) 0))

/-- Column 2 of a line: the row type. -/
def lineType (l : List Char) : List Char := pyStrip (col (lineCols l) 2)

/-- Name column of the first of the given lines mentioning player id `i`. -/
def firstNameIn (ls : List (List Char)) (i : Int) : Option String :=
  (ls.filterMap fun l =>
    if pyStrip l = [] then none
    else if lineId? l = some i then some (lineName l) else none).head?

/-- Name column of the first row of the document mentioning player id `i`. -/
def firstNameFor (raw : String) (i : Int) : Option String :=
  firstNameIn (docLines raw) i

/-- A line that `parse_tournament_stats` treats as a summary row for
tournament `tid` (11 tab-separated columns, first column = `tid`). -/
def isSummaryRowFor (tid : Int) (l : List Char) : Prop :=
  pyStrip l ≠ [] ∧ (pySplit '\t' (pyStrip l)).length = 11 ∧
    pyInt? (pyStrip (col (pySplit '\t' (pyStrip l)) 0)) = some tid

instance (tid : Int) (l : List Char) : Decidable (isSummaryRowFor tid l) := by
  unfold isSummaryRowFor; infer_instance

/-- The parsed match rows for tournament `tid` among the given lines. -/
def matchRowsFor (tid : Int) (ls : List (List Char)) : List TMatchData :=
  ls.filterMap fun l =>
    let t := pyStrip l
    if t = [] then none
    else
      let cols := pySplit '\t' t
      if cols.length < 4 then none
      else if cols.length = 11 then none
      else if pyInt? (pyStrip (col cols 0)) = some tid then
        (matchRowVal cols).toOption
      else none

/-- Signature of rule 1 of the detector. -/
def psSignature (raw : String) : Prop :=
  containsSub "\tXP\t".data raw.data = true ∧
    containsSub "\tRecent games\t".data raw.data = true

/-- Signature of rule 2 of the detector. -/
def msSignature (raw : String) : Prop :=
  raw.data.contains ';' = true ∧ raw.data.contains '\t' = false

/-- Signature of rule 3 of the detector as the code implements it: a double
tab anywhere, and some newline-split line with at least 10 tab characters
(hence at least 11 fields) whose third field strips to "0" or "1". -/
def tsSignature (raw : String) : Prop :=
  containsSub "\t\t".data raw.data = true ∧
    ∃ l ∈ pySplit '\n' raw.data, 10 ≤ countTabs l ∧
      (pyStrip (col (pySplit '\t' l) 2) = "0".data ∨
       pyStrip (col (pySplit '\t' l) 2) = "1".data)

/-- Rule 3 as the claim states it: the double tab and the "0"/"1" third field
on one row with at least 10 tab-separated fields. -/
def tsClaimSignature (raw : String) : Prop :=
  ∃ l ∈ pySplit '\n' raw.data,
    containsSub "\t\t".data l = true ∧ 10 ≤ (pySplit '\t' l).length ∧
      (pyStrip (col (pySplit '\t' l) 2) = "0".data ∨
       pyStrip (col (pySplit '\t' l) 2) = "1".data)

instance (raw : String) : Decidable (psSignature raw) := by
  unfold psSignature; infer_instance

instance (raw : String) : Decidable (msSignature raw) := by
  unfold msSignature; infer_instance

instance (raw : String) : Decidable (tsSignature raw) := by
  unfold tsSignature; infer_instance

instance (raw : String) : Decidable (tsClaimSignature raw) := by
  unfold tsClaimSignature; infer_instance

/-- Well-formed surrogate keys for the tables the player-stats import touches:
autoincrement ids are unique and below the counter. -/
def Store.WF (s : Store) : Prop :=
  (s.players.map fun r => r.id).Nodup ∧
  (s.games.map fun r => r.id).Nodup ∧
  (s.stats.map fun r => r.id).Nodup ∧
  (∀ r ∈ s.players, r.id < s.nextId) ∧
  (∀ r ∈ s.games, r.id < s.nextId) ∧
  (∀ r ∈ s.stats, r.id < s.nextId)

/-- The stored player row carries exactly the parsed attribute values. -/
def playerAgrees (r : PlayerRec) (p : PlayerData) : Prop :=
  r.name = p.name ∧ r.xp = p.xp ∧ r.karma = p.karma ∧
  r.matches_total = p.matches_total ∧ r.wins_total = p.wins_total ∧
  r.abandoned = p.abandoned ∧ r.timeout = p.timeout ∧
  r.recent_matches = p.recent_matches ∧ r.last_seen_days = p.last_seen_days

/-- The stored game stat carries exactly the parsed attribute values. -/
def statAgrees (st : StatRec) (g : GameStatData) : Prop :=
  st.elo = g.elo ∧ st.rank = g.rank ∧ st.played = g.played ∧ st.won = g.won

/-- The store satisfies the round-trip guarantee for player data `p`:
the player row is found by its business key with exactly `p`'s values, and for
every parsed game stat the game is found by name and the stat row by the
(player, game) pair with exactly that stat's values. -/
def roundTrip (s : Store) (p : PlayerData) : Prop :=
  ∃ r, firstPlayerRec s p.bga_player_id = some r ∧ playerAgrees r p ∧
    ∀ g ∈ p.game_stats, ∃ gr st, firstGameRec s g.game_name = some gr ∧
      firstStatRec s r.id gr.id = some st ∧ statAgrees st g

def moveDataOf (r : MoveRec) : MoveData :=
  ⟨r.move_no, r.datetime_local, r.datetime_excel, r.player_name,
    r.remaining_time⟩

/-- Game names referenced by a parsed player-stats document, in row order. -/
def docGameNames (pd : List PlayerData) : List String :=
  (pd.map fun p => p.game_stats.map fun g => g.game_name).flatten

/-- Names that get a fresh placeholder, in allocation order: first occurrences
of names that are neither in the store (`inStore`) nor already allocated. -/
def newNamesAux (inStore : String → Bool) :
    List String → List String → List String
  | _, [] => []
  | seen, n :: ns =>
    if inStore n = true ∨ n ∈ seen then newNamesAux inStore seen ns
    else n :: newNamesAux inStore (n :: seen) ns

def placeholderNames (s : Store) (pd : List PlayerData) : List String :=
  newNamesAux (fun n => (firstGameRec s n).isSome) [] (docGameNames pd)

/-- `[a, a-1, ..., a-k+1]`. -/
def decList (a : Int) (k : Nat) : List Int :=
  (List.range k).map fun i : Nat => a - (i : Int)

/-- Error-kind tags of §7 of the spec. -/
def errorTaxonomy : List (Option String) :=
  [some "ValidationError", some "ParseError", some "ImportError",
   some "UnsupportedTypeError"]

/-! ## Concrete documents used by closed theorems and witnesses -/

/-- The three-line round-trip example of §8 of the spec. -/
def c2doc : String :=
  "JohnDoe\t12345\tXP\t45000\t95\t1250\t650\nJohnDoe\t12345\tRecent games\t2\t1\t45\t3\nJohnDoe\t12345\tChess\t1500\t42\t150\t75"

def c2player : PlayerData :=
  ⟨"JohnDoe", 12345, some 45000, some 95, some 1250, some 650, some 2, some 1,
    some 45, some 3, [⟨"Chess", some "1500", some "42", 150, 75⟩]⟩

/-- First tournament import: one match (table 100) with player Alice. -/
def c5doc1 : String :=
  "1\tT\t\tchess\ts\te\t1\t1\t1\t0\t2\n1\t100\t0\t50\tAlice\t10\t5"

/-- Re-import of tournament 1: one match (table 200) with player Bob only. -/
def c5doc2 : String :=
  "1\tT\t\tchess\ts\te\t1\t1\t1\t0\t2\n1\t200\t0\t60\tBob\t20\t7"

def c5s1 : Store :=
  (import_data emptyStore c5doc1 (some "tournament_stats") none).1

def c5s2 : Store :=
  (import_data c5s1 c5doc2 (some "tournament_stats") none).1

/-- Five moves for table 99. -/
def c4d5 : MoveDoc :=
  ⟨99, "chess",
    [⟨"1", "a", "b", "P", "1"⟩, ⟨"2", "a", "b", "P", "2"⟩,
     ⟨"3", "a", "b", "P", "3"⟩, ⟨"4", "a", "b", "P", "4"⟩,
     ⟨"5", "a", "b", "P", "5"⟩]⟩

def c4raw2 : String := "99;chess;1;a;b;Q;1\n99;chess;2;a;b;Q;2"

def c4d2 : MoveDoc :=
  ⟨99, "chess", [⟨"1", "a", "b", "Q", "1"⟩, ⟨"2", "a", "b", "Q", "2"⟩]⟩

def c4s1 : Store := (import_move_stats emptyStore c4d5).1

/-- A player-stats document in which player 1 receives two XP rows. -/
def c7cdoc : String :=
  "A\t1\tXP\t1\t2\t3\t4\nA\t1\tXP\t5\t6\t7\t8\nA\t1\tRecent games\t9\t10\t11\t12"

/-- A player-stats document whose only player is missing its Recent games
row. -/
def c7wdoc : String := "A\t1\tXP\t1\t2\t3\t4"

def c7wplayer : PlayerData :=
  ⟨"A", 1, some 1, some 2, some 3, some 4, none, none, none, none, []⟩

/-- A tournament document with two summary rows for tournament 1 and a match
row between them. -/
def c10raw : String :=
  "1\tA\t\tchess\ts\te\t1\t2\t3\t0\t4\n1\t100\t0\t50\tP\t10\t5\n1\tB\t\tgo\ts2\te2\t9\t8\t7\t1\t6\n1\t200\t1\t75\tQ\t-3\t9"

def c10l1 : List (List Char) := (docLines c10raw).take 2

def c10L : List Char := (docLines c10raw).getD 2 []

def c10l2 : List (List Char) := (docLines c10raw).drop 3

/-- The second summary row's record (fresh, with no matches). -/
def c10td : TournamentData := ⟨1, "B", "go", "s2", "e2", 9, 8, 7, 1, 6, []⟩

/-- The parse result of `c10raw`. -/
def c10ts : List TournamentData :=
  [⟨1, "B", "go", "s2", "e2", 9, 8, 7, 1, 6,
    [⟨200, true, 75, [⟨"Q", -3, 9⟩]⟩]⟩]

/-- A row with a double tab, exactly 10 tab-separated fields and third field
"0": the claim's reading of rule 3 matches it, the code's does not. -/
def c8doc : String := "1\t\t0\ta\tb\tc\td\te\tf\tg"

/-- Concrete input for the detector rule-3 witness: a double tab, and a line
with 10 tab characters (11 fields) whose third field is "0". -/
def c8doc2 : String := "x\t\ty\n2\t7\t0\ta\tb\tc\td\te\tf\tg\th"

/-- A document giving id 1 the name "Ann" on its first row and "Bea" on its
second; the parsed record keeps the first name. -/
def c9doc : String :=
  "Ann\t1\tXP\t1\t2\t3\t4\nBea\t1\tRecent games\t5\t6\t7\t8"

def c9player : PlayerData :=
  ⟨"Ann", 1, some 1, some 2, some 3, some 4, some 5, some 6, some 7, some 8, []⟩

end BgaStats

namespace BgaStats

/-! # Theorems -/

/-- C2: the three-line player-stats document for JohnDoe (id 12345) parses to
exactly one player record with xp 45000, karma 95, 1250 total matches, 650
wins, 2 abandoned, 1 timeout, 45 recent matches, 3 days since last seen, and
one game stat (elo "1500", rank "42", played 150, won 75); importing it into
the empty store reports 1 player created, 1 game created, 1 game stat created
(and nothing updated). -/
theorem c2_round_trip_example :
    parse_player_stats c2doc = .ok [c2player] ∧
    (import_player_stats emptyStore [c2player]).2 = ⟨1, 0, 1, 1, 0⟩ := by
  constructor
  · decide
  · decide

/-- C5 (code bug): re-importing tournament 1 deletes its TournamentMatch rows
but leaves the TournamentMatchPlayer rows of the first import orphaned: after
the second import the store holds Alice's row pointing at the deleted match
(surrogate id 2), which no surviving tournament match carries. -/
theorem c5_orphaned_tournament_player :
    c5s2.tournament_matches = [⟨4, 1, 200, false, 60⟩] ∧
    c5s2.tournament_match_players =
      [⟨3, 2, "Alice", 10, 5⟩, ⟨5, 4, "Bob", 20, 7⟩] ∧
    ∃ p ∈ c5s2.tournament_match_players,
      p.player_name = "Alice" ∧
        ∀ m ∈ c5s2.tournament_matches, m.id ≠ p.tournament_match_id := by
  refine ⟨by decide, by decide, ⟨3, 2, "Alice", 10, 5⟩, by decide, by decide, ?_⟩
  decide

/-! ### Helper lemmas on the string primitives -/

theorem mem_pyStrip {c : Char} {cs : List Char} (h : c ∈ pyStrip cs) :
    c ∈ cs := by
  unfold pyStrip at h
  rw [List.mem_reverse] at h
  have h2 := List.Sublist.mem h (List.dropWhile_sublist pyIsSpace)
  rw [List.mem_reverse] at h2
  exact List.Sublist.mem h2 (List.dropWhile_sublist pyIsSpace)

theorem pyStrip_nil_iff {cs : List Char} :
    pyStrip cs = [] ↔ ∀ c ∈ cs, pyIsSpace c = true := by
  unfold pyStrip
  rw [List.reverse_eq_nil_iff, List.dropWhile_eq_nil_iff]
  constructor
  · intro h c hc
    have hsplit := List.takeWhile_append_dropWhile (p := pyIsSpace) (l := cs)
    rw [← hsplit, List.mem_append] at hc
    rcases hc with hc | hc
    · exact List.mem_takeWhile_imp hc
    · exact h c (List.mem_reverse.mpr hc)
  · intro h c hc
    rw [List.mem_reverse] at hc
    exact h c (List.Sublist.mem hc (List.dropWhile_sublist _))

theorem mem_pySplitAux {sep c : Char} {l : List Char} :
    ∀ {cs acc : List Char}, l ∈ pySplitAux sep cs acc → c ∈ l →
      c ∈ cs ∨ c ∈ acc := by
  intro cs
  induction cs with
  | nil =>
    intro acc hl hc
    simp only [pySplitAux, List.mem_singleton] at hl
    subst hl
    right; rw [← List.mem_reverse]; exact hc
  | cons d cs ih =>
    intro acc hl hc
    simp only [pySplitAux] at hl
    by_cases hd : d = sep
    · rw [if_pos hd] at hl
      rw [List.mem_cons] at hl
      rcases hl with hl | hl
      · subst hl
        right; rw [← List.mem_reverse]; exact hc
      · rcases ih hl hc with h | h
        · left; exact List.mem_cons_of_mem _ h
        · simp at h
    · rw [if_neg hd] at hl
      rcases ih hl hc with h | h
      · left; exact List.mem_cons_of_mem _ h
      · rcases List.mem_cons.mp h with h | h
        · left; rw [h]; exact List.mem_cons_self _ _
        · right; exact h

theorem mem_pySplit {sep c : Char} {l cs : List Char}
    (hl : l ∈ pySplit sep cs) (hc : c ∈ l) : c ∈ cs := by
  rcases mem_pySplitAux hl hc with h | h
  · exact h
  · simp at h

theorem mem_col {c : Char} {cols : List (List Char)} {i : Nat}
    (hc : c ∈ col cols i) : ∃ l ∈ cols, c ∈ l := by
  unfold col at hc
  rw [List.getD_eq_getElem?_getD] at hc
  rcases hg : cols[i]? with _ | l
  · rw [hg] at hc; simp at hc
  · rw [hg] at hc
    exact ⟨l, List.getElem?_mem hg, hc⟩

/-- A blank text (as `detect_import_type` tests it) cannot carry the
tournament signature: its rows' third fields all strip to nothing. -/
theorem tsSignature_of_blank {raw : String} (hb : pyStrip raw.data = [])
    (h : tsSignature raw) : False := by
  rcases h with ⟨-, l, hl, -, h0⟩
  have hws := pyStrip_nil_iff.mp hb
  have hchar : ∀ c : Char, c ∈ pyStrip (col (pySplit '\t' l) 2) →
      pyIsSpace c = true := by
    intro c hc
    have h1 : c ∈ col (pySplit '\t' l) 2 := mem_pyStrip hc
    rcases mem_col h1 with ⟨fld, hfld, hcf⟩
    exact hws c (mem_pySplit hl (mem_pySplit hfld hcf))
  rcases h0 with h0 | h0 <;> rw [h0] at hchar
  · exact absurd (hchar '0' (by decide)) (by decide)
  · exact absurd (hchar '1' (by decide)) (by decide)

/-- C8 (counterexample): this text matches neither the player-stats nor the
move-stats signature and contains a double tab on a row with 10 tab-separated
fields whose third field is "0", yet the detector returns "unknown", not
"tournament_stats". -/
theorem c8_counterexample :
    detect_import_type c8doc = "unknown" ∧ ¬ psSignature c8doc ∧
      ¬ msSignature c8doc ∧ tsClaimSignature c8doc := by
  refine ⟨by decide, by decide, by decide, ?_⟩
  exact ⟨c8doc.data, by decide, by decide, by decide, Or.inl (by decide)⟩

theorem tsSignature_iff_cond (raw : String) :
    tsSignature raw ↔
      (containsSub "\t\t".data raw.data = true ∧
        ((pySplit '\n' raw.data).any fun l =>
          decide (10 ≤ countTabs l) &&
            (pyStrip (col (pySplit '\t' l) 2) = "0".data ∨
             pyStrip (col (pySplit '\t' l) 2) = "1".data)) = true) := by
  unfold tsSignature
  rw [List.any_eq_true]
  simp only [Bool.and_eq_true, decide_eq_true_eq]

/-- C8 (amended): on text matching neither the player-stats nor the move-stats
signature, the detector returns tournament_stats iff the text contains a
double tab somewhere and some line has at least 10 tab characters (that is, at
least 11 tab-separated fields) whose third field strips to "0" or "1"; the
double tab and that line need not coincide.  Rules are still checked in order
with the first match winning. -/
theorem c8_detect_tournament_amended (raw : String)
    (h1 : ¬ psSignature raw) (h2 : ¬ msSignature raw) :
    (detect_import_type raw = "tournament_stats" ↔ tsSignature raw) := by
  unfold detect_import_type
  dsimp only
  split_ifs with hb hps hms hts
  · exact iff_of_false (by decide) fun hsig => tsSignature_of_blank hb hsig
  · exact absurd hps h1
  · rw [Bool.not_eq_true] at hms
    exact absurd hms h2
  · exact iff_of_true rfl ((tsSignature_iff_cond raw).mpr hts)
  · exact iff_of_false (by decide)
      fun hsig => hts ((tsSignature_iff_cond raw).mp hsig)
  · exact iff_of_false (by decide)
      fun hsig => hts ((tsSignature_iff_cond raw).mp hsig)

/-- Witness for the amended C8 at a concrete input: a double tab on one line
and an 11-field line with third field "0" on another. -/
theorem c8_detect_tournament_amended_witness :
    detect_import_type c8doc2 = "tournament_stats" :=
  (c8_detect_tournament_amended c8doc2 (by decide) (by decide)).mpr
    ⟨by decide, "2\t7\t0\ta\tb\tc\td\te\tf\tg\th".data, by decide, by decide,
      Or.inl (by decide)⟩

/-- C1: for every payload, tag and storage fault, (i) whenever `import_data`
reports failure the committed store is returned unchanged and the error tag is
one of the four taxonomy tags; (ii) a parser failure yields exactly the
rollback result carrying that parser error's message and kind tag (no import
step having touched the store); (iii) a storage fault after a successful parse
of a supported type yields the rollback result wrapping the fault's message as
ImportError; (iv) an unsupported resolved tag yields the
UnsupportedTypeError result with the store unchanged. -/
theorem c1_import_data_rollback (s : Store) (raw : String)
    (tag fault : Option String) :
    ((import_data s raw tag fault).2.success = false →
      (import_data s raw tag fault).1 = s ∧
      (import_data s raw tag fault).2.error_type ∈ errorTaxonomy) ∧
    (∀ e, parseOutcome (resolvedTag raw tag) raw = some (.error e) →
      import_data s raw tag fault = (s, errorResult e)) ∧
    (∀ m, fault = some m →
      parseOutcome (resolvedTag raw tag) raw = some (.ok ()) →
      import_data s raw tag fault = (s, faultResult m)) ∧
    (parseOutcome (resolvedTag raw tag) raw = none →
      import_data s raw tag fault = (s, unsupportedResult (resolvedTag raw tag))) := by
  unfold import_data parseOutcome
  dsimp only
  split_ifs with h1 h2 h3 h4
  case pos =>
    rcases hp : parse_player_stats raw with e | d
    · simp only [hp, Except.map]
      refine ⟨fun _ => ⟨by trivial, ?_⟩, fun e' he' => ?_, fun m hm hok => ?_, fun hn => ?_⟩
      · cases e <;> simp [errorResult, errorTaxonomy]
      · injection he' with h; injection h with h; rw [h]
      · exact absurd hok (by simp)
      · exact absurd hn (by simp)
    · rcases fault with _ | m
      · simp only [hp, Except.map]
        exact ⟨fun hf => absurd hf (by simp [okResult]),
          fun e' he' => by simp at he',
          fun m hm _ => by simp at hm,
          fun hn => by simp at hn⟩
      · simp only [hp, Except.map]
        refine ⟨fun _ => ⟨by trivial, by simp [faultResult, errorTaxonomy]⟩,
          fun e' he' => by simp at he',
          fun m' hm' _ => ?_, fun hn => by simp at hn⟩
        injection hm' with h; rw [h]
  case pos =>
    rcases hp : parse_game_list raw with e | d
    · simp only [hp, Except.map]
      refine ⟨fun _ => ⟨by trivial, ?_⟩, fun e' he' => ?_, fun m hm hok => ?_, fun hn => ?_⟩
      · cases e <;> simp [errorResult, errorTaxonomy]
      · injection he' with h; injection h with h; rw [h]
      · exact absurd hok (by simp)
      · exact absurd hn (by simp)
    · rcases fault with _ | m
      · simp only [hp, Except.map]
        exact ⟨fun hf => absurd hf (by simp [okResult]),
          fun e' he' => by simp at he',
          fun m hm _ => by simp at hm,
          fun hn => by simp at hn⟩
      · simp only [hp, Except.map]
        refine ⟨fun _ => ⟨by trivial, by simp [faultResult, errorTaxonomy]⟩,
          fun e' he' => by simp at he',
          fun m' hm' _ => ?_, fun hn => by simp at hn⟩
        injection hm' with h; rw [h]
  case pos =>
    rcases hp : parse_move_stats raw with e | d
    · simp only [hp, Except.map]
      refine ⟨fun _ => ⟨by trivial, ?_⟩, fun e' he' => ?_, fun m hm hok => ?_, fun hn => ?_⟩
      · cases e <;> simp [errorResult, errorTaxonomy]
      · injection he' with h; injection h with h; rw [h]
      · exact absurd hok (by simp)
      · exact absurd hn (by simp)
    · rcases fault with _ | m
      · simp only [hp, Except.map]
        exact ⟨fun hf => absurd hf (by simp [okResult]),
          fun e' he' => by simp at he',
          fun m hm _ => by simp at hm,
          fun hn => by simp at hn⟩
      · simp only [hp, Except.map]
        refine ⟨fun _ => ⟨by trivial, by simp [faultResult, errorTaxonomy]⟩,
          fun e' he' => by simp at he',
          fun m' hm' _ => ?_, fun hn => by simp at hn⟩
        injection hm' with h; rw [h]
  case pos =>
    rcases hp : parse_tournament_stats raw with e | d
    · simp only [hp, Except.map]
      refine ⟨fun _ => ⟨by trivial, ?_⟩, fun e' he' => ?_, fun m hm hok => ?_, fun hn => ?_⟩
      · cases e <;> simp [errorResult, errorTaxonomy]
      · injection he' with h; injection h with h; rw [h]
      · exact absurd hok (by simp)
      · exact absurd hn (by simp)
    · rcases fault with _ | m
      · simp only [hp, Except.map]
        exact ⟨fun hf => absurd hf (by simp [okResult]),
          fun e' he' => by simp at he',
          fun m hm _ => by simp at hm,
          fun hn => by simp at hn⟩
      · simp only [hp, Except.map]
        refine ⟨fun _ => ⟨by trivial, by simp [faultResult, errorTaxonomy]⟩,
          fun e' he' => by simp at he',
          fun m' hm' _ => ?_, fun hn => by simp at hn⟩
        injection hm' with h; rw [h]
  case neg =>
    exact ⟨fun _ => ⟨rfl, by simp [unsupportedResult, errorTaxonomy]⟩,
      fun e' he' => by simp at he',
      fun m hm hok => by simp at hok,
      fun _ => rfl⟩

/-- Witness for C1: importing an empty payload with the player-stats tag from
the empty store fails and leaves the store unchanged with a taxonomy tag. -/
theorem c1_import_data_rollback_witness :
    (import_data emptyStore "" (some "player_stats") none).1 = emptyStore ∧
    (import_data emptyStore "" (some "player_stats") none).2.error_type ∈
      errorTaxonomy :=
  (c1_import_data_rollback emptyStore "" (some "player_stats") none).1
    (by decide)

/-! ### More string-primitive lemmas -/

theorem dropWhile_self_dropWhile {α : Type} (p : α → Bool) (l : List α) :
    List.dropWhile p (List.dropWhile p l) = List.dropWhile p l := by
  rcases h : List.dropWhile p l with _ | ⟨c, cs⟩
  · rfl
  · have hh := List.head?_dropWhile_not p l
    rw [h] at hh
    simp only [List.head?] at hh
    rw [List.dropWhile_cons, if_neg (by simp [hh])]

theorem pyStrip_idem (cs : List Char) : pyStrip (pyStrip cs) = pyStrip cs := by
  have hu : (pyStrip cs).reverse =
      (cs.dropWhile pyIsSpace).reverse.dropWhile pyIsSpace := by
    unfold pyStrip; rw [List.reverse_reverse]
  have h1 : (pyStrip cs).dropWhile pyIsSpace = pyStrip cs := by
    rcases hcase : pyStrip cs with _ | ⟨c, cs'⟩
    · rfl
    · have hpre : pyStrip cs <+: cs.dropWhile pyIsSpace := by
        rw [← List.reverse_suffix, hu]
        exact List.dropWhile_suffix _
      rw [hcase] at hpre
      rcases hpre with ⟨r, hr⟩
      have hh := List.head?_dropWhile_not pyIsSpace cs
      rw [← hr] at hh
      simp only [List.cons_append, List.head?] at hh
      rw [List.dropWhile_cons, if_neg (by simp [hh])]
  show ((((pyStrip cs).dropWhile pyIsSpace).reverse).dropWhile pyIsSpace).reverse
      = pyStrip cs
  rw [h1, hu, dropWhile_self_dropWhile, ← hu, List.reverse_reverse]

theorem pyInt?_pyStrip (cs : List Char) : pyInt? (pyStrip cs) = pyInt? cs := by
  unfold pyInt?
  rw [pyStrip_idem]

/-! ### C4: full-replace semantics of move re-import -/

theorem addMoves_spec (mid : Nat) :
    ∀ (mvs : List MoveData) (s : Store),
      ∃ t, (addMoves s mid mvs).1.moves = s.moves ++ t ∧
        t.map moveDataOf = mvs ∧ (∀ r ∈ t, r.match_id = mid) ∧
        (addMoves s mid mvs).2 = mvs.length := by
  intro mvs
  induction mvs with
  | nil => intro s; exact ⟨[], by simp [addMoves], rfl, by simp, rfl⟩
  | cons mv rest ih =>
    intro s
    obtain ⟨t, ht, hmap, hmid, hcount⟩ := ih
      { s with nextId := s.nextId + 1,
               moves := s.moves ++
                 [⟨s.nextId, mid, mv.move_no, mv.player_name,
                   mv.datetime_local, mv.datetime_excel, mv.remaining_time⟩] }
    refine ⟨⟨s.nextId, mid, mv.move_no, mv.player_name, mv.datetime_local,
      mv.datetime_excel, mv.remaining_time⟩ :: t, ?_, ?_, ?_, ?_⟩
    · simpa [addMoves] using ht
    · simp [hmap, moveDataOf]
    · intro r hr
      rcases List.mem_cons.mp hr with hr | hr
      · rw [hr]
      · exact hmid r hr
    · simp [addMoves, hcount]

/-- C4: when a match with the document's table id is already stored,
re-importing a parsed move-stats document leaves, for that match, exactly the
document's moves in document order (old moves deleted, nothing else kept), and
reports 0 matches created, 1 updated, and one created move per document row. -/
theorem c4_move_full_replace (s : Store) (raw : String) (d : MoveDoc)
    (m0 : MatchRec) (hp : parse_move_stats raw = .ok d)
    (hm : firstMatchRec s d.table_id = some m0) :
    ((import_move_stats s d).1.moves.filter
        fun mv => mv.match_id == m0.id).map moveDataOf = d.moves ∧
    (import_move_stats s d).2 = ⟨0, 1, d.moves.length⟩ := by
  unfold import_move_stats
  rw [hm]
  dsimp only
  obtain ⟨t, ht, hmap, hmid, hcount⟩ := addMoves_spec m0.id d.moves
    { s with
      «matches» := s.«matches».map fun m =>
        if m.id = m0.id then { m with game_name := d.game_name } else m,
      moves := s.moves.filter fun mv => !(mv.match_id == m0.id) }
  constructor
  · rw [ht]
    dsimp only
    rw [List.filter_append]
    have h1 : (s.moves.filter fun mv => !(mv.match_id == m0.id)).filter
        (fun mv => mv.match_id == m0.id) = [] := by
      rw [List.filter_eq_nil_iff]
      intro a ha
      have := (List.mem_filter.mp ha).2
      simp only [Bool.not_eq_true'] at this
      simp [this]
    have h2 : t.filter (fun mv => mv.match_id == m0.id) = t := by
      rw [List.filter_eq_self]
      intro a ha
      simp [hmid a ha]
    rw [h1, h2, List.nil_append, hmap]
  · rw [hcount]

/-- Witness for C4: a stored 5-move match re-imported from a 2-move document
ends with exactly the 2 new moves. -/
theorem c4_move_full_replace_witness :
    c4s1.moves.length = 5 ∧
    ((import_move_stats c4s1 c4d2).1.moves.filter
        fun mv => mv.match_id == 1).map moveDataOf = c4d2.moves ∧
    (import_move_stats c4s1 c4d2).1.moves.length = 2 ∧
    (import_move_stats c4s1 c4d2).2 = ⟨0, 1, 2⟩ := by
  refine ⟨by decide, ?_, by decide, ?_⟩
  · exact (c4_move_full_replace c4s1 c4raw2 c4d2 ⟨1, 99, "chess"⟩
      (by decide) (by decide)).1
  · exact (c4_move_full_replace c4s1 c4raw2 c4d2 ⟨1, 99, "chess"⟩
      (by decide) (by decide)).2

/-! ### A generic lemma for upsert maps: updating selected entries without
changing the queried key moves `find?` through the map. -/

theorem find?_map_keyed {α : Type} (q : α → Bool) (P : α → Prop)
    [DecidablePred P] (f : α → α) (l : List α)
    (hpres : ∀ b, P b → q (f b) = q b) :
    (l.map fun x => if P x then f x else x).find? q =
      (l.find? q).map fun a => if P a then f a else a := by
  induction l with
  | nil => rfl
  | cons b l ih =>
    have hq2 : q (if P b then f b else b) = q b := by
      by_cases hP : P b
      · rw [if_pos hP, hpres b hP]
      · rw [if_neg hP]
    simp only [List.map_cons]
    cases hqb : q b with
    | false =>
      rw [List.find?_cons_of_neg _ (by simp [hq2, hqb]),
          List.find?_cons_of_neg _ (by simp [hqb])]
      exact ih
    | true =>
      rw [List.find?_cons_of_pos _ (by rw [hq2]; exact hqb),
          List.find?_cons_of_pos _ hqb]
      rfl

/-! ### Row-handler facts for the player-stats parser -/

theorem parseXpRow_ok {p : PlayerData} {cols : List (List Char)}
    {p2 : PlayerData} (h : parseXpRow p cols = .ok p2) :
    p2.name = p.name ∧ p2.bga_player_id = p.bga_player_id ∧
    p2.xp.isSome = true ∧ p2.abandoned = p.abandoned ∧
    p2.game_stats = p.game_stats := by
  unfold parseXpRow at h
  split_ifs at h with h7
  rcases ha : pyInt? (col cols 3) with _ | a <;>
    rcases hb : pyInt? (col cols 4) with _ | b <;>
    rcases hc : pyInt? (col cols 5) with _ | c <;>
    rcases hd : pyInt? (col cols 6) with _ | d <;>
    simp only [ha, hb, hc, hd] at h <;>
    first
    | exact Except.noConfusion h
    | (injection h with h
       subst h
       exact ⟨rfl, rfl, rfl, rfl, rfl⟩)

theorem parseRecentRow_ok {p : PlayerData} {cols : List (List Char)}
    {p2 : PlayerData} (h : parseRecentRow p cols = .ok p2) :
    p2.name = p.name ∧ p2.bga_player_id = p.bga_player_id ∧
    p2.abandoned.isSome = true ∧ p2.xp = p.xp ∧
    p2.game_stats = p.game_stats := by
  unfold parseRecentRow at h
  split_ifs at h with h7
  rcases ha : pyInt? (col cols 3) with _ | a <;>
    rcases hb : pyInt? (col cols 4) with _ | b <;>
    rcases hc : pyInt? (col cols 5) with _ | c <;>
    rcases hd : pyInt? (col cols 6) with _ | d <;>
    simp only [ha, hb, hc, hd] at h <;>
    first
    | exact Except.noConfusion h
    | (injection h with h
       subst h
       exact ⟨rfl, rfl, rfl, rfl, rfl⟩)

theorem parseGameRow_ok {p : PlayerData} {cols : List (List Char)}
    {p2 : PlayerData} (h : parseGameRow p cols = .ok p2) :
    p2.name = p.name ∧ p2.bga_player_id = p.bga_player_id ∧
    p2.xp = p.xp ∧ p2.abandoned = p.abandoned ∧
    ∃ g, p2.game_stats = p.game_stats ++ [g] := by
  unfold parseGameRow at h
  dsimp only at h
  split_ifs at h with h7 hg <;>
    rcases ha : pyInt? (col cols 5) with _ | a <;>
    rcases hb : pyInt? (col cols 6) with _ | b <;>
    simp only [ha, hb] at h <;>
    first
    | exact Except.noConfusion h
    | (injection h with h
       subst h
       exact ⟨rfl, rfl, rfl, rfl, _, rfl⟩)

theorem lookup_entry_if (acc : List PlayerData) (j : Int) (nm : String) :
    lookupPlayer (if lookupPlayer acc j = none
      then acc ++ [freshPlayer nm j] else acc) j =
    some ((lookupPlayer acc j).getD (freshPlayer nm j)) := by
  rcases hlk : lookupPlayer acc j with _ | q
  · rw [if_pos rfl]
    unfold lookupPlayer at hlk ⊢
    rw [List.find?_append, hlk]
    simp [freshPlayer]
  · rw [if_neg (by simp), Option.getD_some]
    exact hlk

theorem entry_bga (acc : List PlayerData) (j : Int) (nm : String) :
    ((lookupPlayer acc j).getD (freshPlayer nm j)).bga_player_id = j := by
  rcases hlk : lookupPlayer acc j with _ | q
  · rfl
  · rw [Option.getD_some]
    have := List.find?_some hlk
    simpa using this

/-- Shape of a successful `psStep`: either the line is blank, or it names a
player id `j`, possibly inserts a fresh entry for `j`, and replaces the entry
for `j` by a row-handler output that keeps the entry's name and id, where the
handler is selected by the row type. -/
theorem psStep_ok_cases {acc : List PlayerData} {k : Nat} {l : List Char}
    {acc2 : List PlayerData} (h : psStep acc k l = .ok acc2) :
    (pyStrip l = [] ∧ acc2 = acc) ∨
    (∃ j p2, pyStrip l ≠ [] ∧ lineId? l = some j ∧
      acc2 = putPlayer
        (if lookupPlayer acc j = none
         then acc ++ [freshPlayer (lineName l) j] else acc) j p2 ∧
      p2.name = ((lookupPlayer acc j).getD (freshPlayer (lineName l) j)).name ∧
      p2.bga_player_id = j ∧
      ((lineType l = "XP".data ∧ p2.xp.isSome = true ∧
         p2.abandoned =
           ((lookupPlayer acc j).getD (freshPlayer (lineName l) j)).abandoned) ∨
       (lineType l ≠ "XP".data ∧ lineType l = "Recent games".data ∧
         p2.abandoned.isSome = true ∧
         p2.xp = ((lookupPlayer acc j).getD (freshPlayer (lineName l) j)).xp) ∨
       (lineType l ≠ "XP".data ∧ lineType l ≠ "Recent games".data ∧
         p2.xp = ((lookupPlayer acc j).getD (freshPlayer (lineName l) j)).xp ∧
         p2.abandoned =
           ((lookupPlayer acc j).getD (freshPlayer (lineName l) j)).abandoned))) := by
  unfold psStep at h
  by_cases hb : pyStrip l = []
  · rw [if_pos hb] at h
    injection h with h
    exact Or.inl ⟨hb, h.symm⟩
  rw [if_neg hb] at h
  dsimp only at h
  split_ifs at h with h7 hname hxp hrg
  case pos =>
    rcases hid : pyInt? (pyStrip (col (pySplit '\t' (pyStrip l)) 1)) with _ | j
      <;> simp only [hid] at h
    · exact absurd h (by simp)
    right
    rw [lookup_entry_if, Option.getD_some] at h
    rcases hres : parseXpRow ((lookupPlayer acc j).getD
        (freshPlayer (listToStr (pyStrip (col (pySplit '\t' (pyStrip l)) 0))) j))
        (pySplit '\t' (pyStrip l)) with e | p2
      <;> simp only [hres] at h
    · exact absurd h (by simp)
    obtain ⟨hn, hb2, hx, hab, -⟩ := parseXpRow_ok hres
    injection h with h
    exact ⟨j, p2, hb, hid, h.symm, hn, by rw [hb2]; exact entry_bga acc j _,
      Or.inl ⟨hxp, hx, hab⟩⟩
  case pos =>
    rcases hid : pyInt? (pyStrip (col (pySplit '\t' (pyStrip l)) 1)) with _ | j
      <;> simp only [hid] at h
    · exact absurd h (by simp)
    right
    rw [lookup_entry_if, Option.getD_some] at h
    rcases hres : parseRecentRow ((lookupPlayer acc j).getD
        (freshPlayer (listToStr (pyStrip (col (pySplit '\t' (pyStrip l)) 0))) j))
        (pySplit '\t' (pyStrip l)) with e | p2
      <;> simp only [hres] at h
    · exact absurd h (by simp)
    obtain ⟨hn, hb2, hab, hx, -⟩ := parseRecentRow_ok hres
    injection h with h
    exact ⟨j, p2, hb, hid, h.symm, hn, by rw [hb2]; exact entry_bga acc j _,
      Or.inr (Or.inl ⟨hxp, hrg, hab, hx⟩)⟩
  case neg =>
    rcases hid : pyInt? (pyStrip (col (pySplit '\t' (pyStrip l)) 1)) with _ | j
      <;> simp only [hid] at h
    · exact absurd h (by simp)
    right
    rw [lookup_entry_if, Option.getD_some] at h
    rcases hres : parseGameRow ((lookupPlayer acc j).getD
        (freshPlayer (listToStr (pyStrip (col (pySplit '\t' (pyStrip l)) 0))) j))
        (pySplit '\t' (pyStrip l)) with e | p2
      <;> simp only [hres] at h
    · exact absurd h (by simp)
    obtain ⟨hn, hb2, hx, hab, -⟩ := parseGameRow_ok hres
    injection h with h
    exact ⟨j, p2, hb, hid, h.symm, hn, by rw [hb2]; exact entry_bga acc j _,
      Or.inr (Or.inr ⟨hxp, hrg, hx, hab⟩)⟩

/-! ### C9: the first row's name wins for a platform id -/

theorem lookupPlayer_putPlayer {j : Int} {p2 : PlayerData}
    (acc : List PlayerData) (hb : p2.bga_player_id = j) (i : Int) :
    lookupPlayer (putPlayer acc j p2) i =
      (lookupPlayer acc i).map fun r =>
        if r.bga_player_id = j then p2 else r := by
  unfold lookupPlayer putPlayer
  exact find?_map_keyed (fun r => r.bga_player_id == i)
    (fun r => r.bga_player_id = j) (fun _ => p2) acc
    (fun b hPb => by
      have hPb2 : b.bga_player_id = j := hPb
      show (p2.bga_player_id == i) = (b.bga_player_id == i)
      rw [hb, hPb2])

theorem lookupPlayer_append (acc : List PlayerData) (f : PlayerData)
    (i : Int) :
    lookupPlayer (acc ++ [f]) i =
      (lookupPlayer acc i).or (lookupPlayer [f] i) := by
  unfold lookupPlayer
  exact List.find?_append

/-- For a different player id, a row step does not change the entry. -/
theorem lookupPlayer_step_other {acc : List PlayerData} {j : Int}
    {p2 : PlayerData} (hb : p2.bga_player_id = j) (nm : String) (i : Int)
    (hij : i ≠ j) :
    lookupPlayer (putPlayer
      (if lookupPlayer acc j = none
       then acc ++ [freshPlayer nm j] else acc) j p2) i =
    lookupPlayer acc i := by
  rw [lookupPlayer_putPlayer _ hb]
  have h1 : lookupPlayer
      (if lookupPlayer acc j = none
       then acc ++ [freshPlayer nm j] else acc) i = lookupPlayer acc i := by
    rcases hlk : lookupPlayer acc j with _ | q
    · rw [if_pos rfl, lookupPlayer_append]
      have hnone : lookupPlayer [freshPlayer nm j] i = none := by
        unfold lookupPlayer
        rw [List.find?_cons_of_neg _ (by simp [freshPlayer]; exact Ne.symm hij)]
        rfl
      rw [hnone]
      simp
    · rw [if_neg (by simp)]
  rw [h1]
  rcases hlk2 : lookupPlayer acc i with _ | r0
  · rfl
  · have hr0 : r0.bga_player_id = i := by
      have := List.find?_some hlk2
      simpa using this
    rw [Option.map_some']
    rw [if_neg (by rw [hr0]; exact hij)]

/-- Through the row loop, the name attached to a player id is the name column
of the first row mentioning that id: later rows never overwrite it. -/
theorem psFold_nm (i : Int) :
    ∀ (ls : List (List Char)) (acc : List PlayerData) (k : Nat)
      (res : List PlayerData), psFold acc k ls = .ok res →
      (lookupPlayer res i).map (fun p => p.name) =
        ((lookupPlayer acc i).map fun p => p.name).or (firstNameIn ls i) := by
  intro ls
  induction ls with
  | nil =>
    intro acc k res hfold
    simp only [psFold] at hfold
    injection hfold with h
    subst h
    simp [firstNameIn]
  | cons l ls ih =>
    intro acc k res hfold
    simp only [psFold] at hfold
    rcases hstep : psStep acc k l with e | acc2 <;> simp only [hstep] at hfold
    · exact absurd hfold (by simp)
    rcases psStep_ok_cases hstep with ⟨hbl, rfl⟩ |
      ⟨j, p2, hnb, hid, rfl, hname2, hbga2, -⟩
    · have hfn : firstNameIn (l :: ls) i = firstNameIn ls i := by
        simp only [firstNameIn, List.filterMap_cons]
        rw [if_pos hbl]
      rw [hfn]
      exact ih _ (k + 1) res hfold
    · by_cases hij : i = j
      · subst hij
        have hlk2 : lookupPlayer (putPlayer
            (if lookupPlayer acc i = none
             then acc ++ [freshPlayer (lineName l) i] else acc) i p2) i =
            some p2 := by
          rw [lookupPlayer_putPlayer _ hbga2, lookup_entry_if,
            Option.map_some', if_pos (entry_bga acc i (lineName l))]
        have hfn : firstNameIn (l :: ls) i = some (lineName l) := by
          simp only [firstNameIn, List.filterMap_cons]
          rw [if_neg hnb, if_pos hid]
          rfl
        rw [hfn]
        have hih := ih _ (k + 1) res hfold
        rw [hlk2, Option.map_some', Option.or_some] at hih
        rw [hih, hname2]
        rcases hacc : lookupPlayer acc i with _ | q
        · simp [freshPlayer, lineName]
        · simp
      · have hfn : firstNameIn (l :: ls) i = firstNameIn ls i := by
          simp only [firstNameIn, List.filterMap_cons]
          rw [if_neg hnb, if_neg (by rw [hid]; simp [Ne.symm hij])]
        rw [hfn]
        have hih := ih _ (k + 1) res hfold
        rw [lookupPlayer_step_other hbga2 _ i hij] at hih
        exact hih

/-- Through the row loop, every accumulated player is found by its own id. -/
theorem psFold_unique :
    ∀ (ls : List (List Char)) (acc : List PlayerData) (k : Nat)
      (res : List PlayerData), psFold acc k ls = .ok res →
      (∀ p ∈ acc, lookupPlayer acc p.bga_player_id = some p) →
      ∀ p ∈ res, lookupPlayer res p.bga_player_id = some p := by
  intro ls
  induction ls with
  | nil =>
    intro acc k res hfold hU
    simp only [psFold] at hfold
    injection hfold with h
    subst h
    exact hU
  | cons l ls ih =>
    intro acc k res hfold hU
    simp only [psFold] at hfold
    rcases hstep : psStep acc k l with e | acc2 <;> simp only [hstep] at hfold
    · exact absurd hfold (by simp)
    rcases psStep_ok_cases hstep with ⟨hbl, rfl⟩ |
      ⟨j, p2, hnb, hid, rfl, hname2, hbga2, -⟩
    · exact ih _ (k + 1) res hfold hU
    · refine ih _ (k + 1) res hfold ?_
      intro m hm
      unfold putPlayer at hm
      rcases List.mem_map.mp hm with ⟨x, hx, hxm⟩
      by_cases hxj : x.bga_player_id = j
      · rw [if_pos hxj] at hxm
        subst hxm
        rw [lookupPlayer_putPlayer _ hbga2, hbga2, lookup_entry_if,
          Option.map_some', if_pos (entry_bga acc j (lineName l))]
      · rw [if_neg hxj] at hxm
        subst hxm
        rw [lookupPlayer_step_other hbga2 _ _ hxj]
        -- x is in acc or is the fresh entry; the fresh entry has id j
        rcases hlk : lookupPlayer acc j with _ | q
        · rw [if_pos hlk] at hx
          rcases List.mem_append.mp hx with hx | hx
          · exact hU x hx
          · rcases List.mem_singleton.mp hx with rfl
            exact absurd rfl hxj
        · rw [if_neg (by simp [hlk])] at hx
          exact hU x hx

/-- C9: when the same platform id appears on several rows (with possibly
different names in column 1), the parsed record keeps the name of the first
row mentioning that id. -/
theorem c9_first_name_wins (raw : String) (ps : List PlayerData)
    (hok : parse_player_stats raw = .ok ps) :
    ∀ p ∈ ps, firstNameFor raw p.bga_player_id = some p.name := by
  intro p hp
  unfold parse_player_stats at hok
  have hfold : psFold [] 1 (pySplit '\n' (pyStrip raw.data)) = .ok ps := by
    by_cases hraw : pyStrip raw.data = []
    · rw [if_pos hraw] at hok
      exact absurd hok (by simp)
    · rw [if_neg hraw] at hok
      rcases hf : psFold [] 1 (pySplit '\n' (pyStrip raw.data)) with e | ps0
        <;> simp only [hf] at hok
      · exact absurd hok (by simp)
      rcases hfm : firstMissing ps0 with _ | p0 <;> simp only [hfm] at hok
      · injection hok with hok
        rw [hok]
      · exact absurd hok (by simp)
  have hU := psFold_unique _ [] 1 ps hfold (by intro p hp; simp at hp) p hp
  have hnm := psFold_nm p.bga_player_id _ [] 1 ps hfold
  rw [hU, Option.map_some'] at hnm
  have hnone : lookupPlayer [] p.bga_player_id = none := rfl
  rw [hnone] at hnm
  simp only [Option.map_none', Option.none_or] at hnm
  exact hnm.symm

/-- Witness for C9: id 1 appears with names "Ann" then "Bea"; the parsed
record keeps "Ann", the name of the first row. -/
theorem c9_first_name_wins_witness :
    firstNameFor c9doc 1 = some "Ann" := by
  have h := c9_first_name_wins c9doc [c9player] (by decide) c9player
    (List.mem_singleton.mpr rfl)
  exact h

/-! ### C7: required XP and Recent-games rows -/

theorem rowFor_blank {l : List Char} (hb : pyStrip l = []) (i : Int)
    (ty : List Char) : rowFor i ty l = false := by
  unfold rowFor
  rw [hb]
  rfl

theorem rowFor_true (i : Int) (ty l : List Char) :
    rowFor i ty l = true ↔
      (pyStrip l ≠ [] ∧ lineId? l = some i ∧ lineType l = ty) := by
  unfold rowFor lineId? lineType lineCols
  rcases hl : pyStrip l with _ | ⟨c, cs⟩
  · simp [List.isEmpty]
  · simp [List.isEmpty, and_assoc]

/-- Existence of xp / abandoned values tracks exactly the XP / Recent-games
rows seen for the id, on top of whatever the accumulator already holds. -/
theorem psFold_rows (i : Int) :
    ∀ (ls : List (List Char)) (acc : List PlayerData) (k : Nat)
      (res : List PlayerData), psFold acc k ls = .ok res →
      ∀ p, lookupPlayer res i = some p →
        (p.xp.isSome = true ↔
          ((∃ q, lookupPlayer acc i = some q ∧ q.xp.isSome = true) ∨
            ls.any (rowFor i ("XP".data)) = true)) ∧
        (p.abandoned.isSome = true ↔
          ((∃ q, lookupPlayer acc i = some q ∧ q.abandoned.isSome = true) ∨
            ls.any (rowFor i ("Recent games".data)) = true)) := by
  intro ls
  induction ls with
  | nil =>
    intro acc k res hfold p hp
    simp only [psFold] at hfold
    injection hfold with h
    subst h
    constructor
    · simp only [List.any_nil, Bool.false_eq_true, or_false]
      exact ⟨fun hx => ⟨p, hp, hx⟩, fun ⟨q, hq, hx⟩ => by
        rw [hp] at hq; injection hq with hq; rw [hq]; exact hx⟩
    · simp only [List.any_nil, Bool.false_eq_true, or_false]
      exact ⟨fun hx => ⟨p, hp, hx⟩, fun ⟨q, hq, hx⟩ => by
        rw [hp] at hq; injection hq with hq; rw [hq]; exact hx⟩
  | cons l ls ih =>
    intro acc k res hfold p hp
    simp only [psFold] at hfold
    rcases hstep : psStep acc k l with e | acc2 <;> simp only [hstep] at hfold
    · exact absurd hfold (by simp)
    rcases psStep_ok_cases hstep with ⟨hbl, rfl⟩ |
      ⟨j, p2, hnb, hid, rfl, hname2, hbga2, htri⟩
    · have hany : ∀ ty, (l :: ls).any (rowFor i ty) = ls.any (rowFor i ty) := by
        intro ty
        rw [List.any_cons, rowFor_blank hbl]
        simp
      rw [hany, hany]
      exact ih _ (k + 1) res hfold p hp
    · by_cases hij : i = j
      · subst hij
        have hlk2 : lookupPlayer (putPlayer
            (if lookupPlayer acc i = none
             then acc ++ [freshPlayer (lineName l) i] else acc) i p2) i =
            some p2 := by
          rw [lookupPlayer_putPlayer _ hbga2, lookup_entry_if,
            Option.map_some', if_pos (entry_bga acc i (lineName l))]
        have hihp := ih _ (k + 1) res hfold p hp
        rw [hlk2] at hihp
        have hsimp : ∀ P : PlayerData → Prop,
            (∃ q, (some p2 : Option PlayerData) = some q ∧ P q) ↔ P p2 := by
          intro P
          constructor
          · rintro ⟨q, hq, hPq⟩
            injection hq with hq
            rw [hq]
            exact hPq
          · intro hP
            exact ⟨p2, rfl, hP⟩
        have hbasex : ((lookupPlayer acc i).getD
              (freshPlayer (lineName l) i)).xp.isSome = true ↔
            (∃ q, lookupPlayer acc i = some q ∧ q.xp.isSome = true) := by
          rcases hacc : lookupPlayer acc i with _ | q0
          · simp [freshPlayer]
          · simp
        have hbasea : ((lookupPlayer acc i).getD
              (freshPlayer (lineName l) i)).abandoned.isSome = true ↔
            (∃ q, lookupPlayer acc i = some q ∧ q.abandoned.isSome = true) := by
          rcases hacc : lookupPlayer acc i with _ | q0
          · simp [freshPlayer]
          · simp
        rcases htri with ⟨hty, hx2, hab2⟩ | ⟨hty1, hty2, hab2, hx2⟩ |
          ⟨hty1, hty2, hx2, hab2⟩
        · -- XP row
          have hrow : rowFor i ("XP".data) l = true :=
            (rowFor_true _ _ _).mpr ⟨hnb, hid, hty⟩
          have hrow2 : rowFor i ("Recent games".data) l = false := by
            rcases hr : rowFor i ("Recent games".data) l with _ | _
            · rfl
            · obtain ⟨-, -, hty2⟩ := (rowFor_true _ _ _).mp hr
              rw [hty] at hty2
              exact absurd hty2 (by decide)
          constructor
          · rw [List.any_cons, hrow]
            simp only [Bool.true_or]
            rw [hihp.1, hsimp]
            simp [hx2]
          · rw [List.any_cons, hrow2]
            simp only [Bool.false_or]
            rw [hihp.2, hsimp, hab2, hbasea]
        · -- Recent-games row
          have hrow : rowFor i ("Recent games".data) l = true :=
            (rowFor_true _ _ _).mpr ⟨hnb, hid, hty2⟩
          have hrow2 : rowFor i ("XP".data) l = false := by
            rcases hr : rowFor i ("XP".data) l with _ | _
            · rfl
            · obtain ⟨-, -, htyx⟩ := (rowFor_true _ _ _).mp hr
              exact absurd htyx hty1
          constructor
          · rw [List.any_cons, hrow2]
            simp only [Bool.false_or]
            rw [hihp.1, hsimp, hx2, hbasex]
          · rw [List.any_cons, hrow]
            simp only [Bool.true_or]
            rw [hihp.2, hsimp]
            simp [hab2]
        · -- game row
          have hrow : rowFor i ("XP".data) l = false := by
            rcases hr : rowFor i ("XP".data) l with _ | _
            · rfl
            · obtain ⟨-, -, htyx⟩ := (rowFor_true _ _ _).mp hr
              exact absurd htyx hty1
          have hrow2 : rowFor i ("Recent games".data) l = false := by
            rcases hr : rowFor i ("Recent games".data) l with _ | _
            · rfl
            · obtain ⟨-, -, htyr⟩ := (rowFor_true _ _ _).mp hr
              exact absurd htyr hty2
          constructor
          · rw [List.any_cons, hrow]
            simp only [Bool.false_or]
            rw [hihp.1, hsimp, hx2, hbasex]
          · rw [List.any_cons, hrow2]
            simp only [Bool.false_or]
            rw [hihp.2, hsimp, hab2, hbasea]
      · have hany : ∀ ty, (l :: ls).any (rowFor i ty) = ls.any (rowFor i ty) := by
          intro ty
          rw [List.any_cons]
          have hrow : rowFor i ty l = false := by
            rcases hr : rowFor i ty l with _ | _
            · rfl
            · obtain ⟨-, hidr, -⟩ := (rowFor_true _ _ _).mp hr
              rw [hid] at hidr
              injection hidr with hidr
              exact absurd hidr.symm hij
          rw [hrow]
          simp
        rw [hany, hany]
        have hihp := ih _ (k + 1) res hfold p hp
        rw [lookupPlayer_step_other hbga2 _ i hij] at hihp
        exact hihp

theorem firstMissing_none_iff (ps : List PlayerData) :
    firstMissing ps = none ↔ ∀ p ∈ ps, p.xp ≠ none ∧ p.abandoned ≠ none := by
  induction ps with
  | nil => simp [firstMissing]
  | cons p rest ih =>
    unfold firstMissing
    split_ifs with hxp hab
    · simp only [List.mem_cons]
      constructor
      · intro h; exact absurd h (by simp)
      · intro h
        exact absurd hxp (h p (Or.inl rfl)).1
    · simp only [List.mem_cons]
      constructor
      · intro h; exact absurd h (by simp)
      · intro h
        exact absurd hab (h p (Or.inl rfl)).2
    · rw [ih]
      constructor
      · intro h q hq
        rcases List.mem_cons.mp hq with rfl | hq
        · exact ⟨hxp, hab⟩
        · exact h q hq
      · intro h q hq
        exact h q (List.mem_cons_of_mem _ hq)

theorem firstMissing_some {ps : List PlayerData} {p : PlayerData}
    (h : firstMissing ps = some p) :
    p ∈ ps ∧ (p.xp = none ∨ p.abandoned = none) := by
  induction ps with
  | nil => simp [firstMissing] at h
  | cons q rest ih =>
    unfold firstMissing at h
    split_ifs at h with hxp hab
    · injection h with h
      subst h
      exact ⟨List.mem_cons_self _ _, Or.inl hxp⟩
    · injection h with h
      subst h
      exact ⟨List.mem_cons_self _ _, Or.inr hab⟩
    · obtain ⟨hm, ho⟩ := ih h
      exact ⟨List.mem_cons_of_mem _ hm, ho⟩

theorem parse_player_stats_unfolded (raw : String) (ps : List PlayerData)
    (hne : pyStrip raw.data ≠ [])
    (hfold : psFold [] 1 (docLines raw) = .ok ps) :
    parse_player_stats raw =
      (match firstMissing ps with
       | some p => .error (.validation (missingMsg p))
       | none => .ok ps) := by
  unfold parse_player_stats
  rw [if_neg hne]
  unfold docLines at hfold
  rw [hfold]

/-- C7 (amended): for a player-stats document whose rows all parse
individually (the row loop succeeds with `ps`), (i) the parse succeeds iff
every player received at least one XP row and at least one Recent-games row
(a duplicate of either row overwrites the earlier values rather than
failing); (ii) a player's xp / abandoned field is unset exactly when the
document has no XP / Recent-games row for its id; (iii) if some player misses
a required row, the parse fails with a ValidationError whose message names
the first such player, its platform id and the missing row type. -/
theorem c7_required_rows_amended (raw : String) (ps : List PlayerData)
    (hne : pyStrip raw.data ≠ [])
    (hfold : psFold [] 1 (docLines raw) = .ok ps) :
    ((parse_player_stats raw).isOk = true ↔
      ∀ p ∈ ps, hasRowB raw p.bga_player_id "XP".data = true ∧
        hasRowB raw p.bga_player_id "Recent games".data = true) ∧
    (∀ p ∈ ps,
      (p.xp = none ↔ ¬ hasRowB raw p.bga_player_id "XP".data = true) ∧
      (p.abandoned = none ↔
        ¬ hasRowB raw p.bga_player_id "Recent games".data = true)) ∧
    (∀ p, firstMissing ps = some p →
      parse_player_stats raw = .error (.validation (missingMsg p))) := by
  have hfields : ∀ p ∈ ps,
      (p.xp = none ↔ ¬ hasRowB raw p.bga_player_id "XP".data = true) ∧
      (p.abandoned = none ↔
        ¬ hasRowB raw p.bga_player_id "Recent games".data = true) := by
    intro p hp
    have hU := psFold_unique _ [] 1 ps hfold (by intro q hq; simp at hq) p hp
    have hr := psFold_rows p.bga_player_id _ [] 1 ps hfold p hU
    have hnone : lookupPlayer [] p.bga_player_id = none := rfl
    rw [hnone] at hr
    have h1 : p.xp.isSome = true ↔
        (docLines raw).any (rowFor p.bga_player_id ("XP".data)) = true := by
      rw [hr.1]
      constructor
      · rintro (⟨q, hq, -⟩ | h)
        · exact absurd hq (by simp)
        · exact h
      · exact Or.inr
    have h2 : p.abandoned.isSome = true ↔
        (docLines raw).any (rowFor p.bga_player_id ("Recent games".data)) = true := by
      rw [hr.2]
      constructor
      · rintro (⟨q, hq, -⟩ | h)
        · exact absurd hq (by simp)
        · exact h
      · exact Or.inr
    constructor
    · rw [show hasRowB raw p.bga_player_id "XP".data =
          (docLines raw).any (rowFor p.bga_player_id ("XP".data)) from rfl]
      rw [← h1]
      rcases p.xp with _ | v <;> simp
    · rw [show hasRowB raw p.bga_player_id "Recent games".data =
          (docLines raw).any (rowFor p.bga_player_id ("Recent games".data)) from rfl]
      rw [← h2]
      rcases p.abandoned with _ | v <;> simp
  refine ⟨?_, hfields, ?_⟩
  · rw [parse_player_stats_unfolded raw ps hne hfold]
    rcases hfm : firstMissing ps with _ | p0
    · simp only [Except.isOk]
      constructor
      · intro _ p hp
        have hok := (firstMissing_none_iff ps).mp hfm p hp
        obtain ⟨h1, h2⟩ := hfields p hp
        constructor
        · by_contra hc
          exact hok.1 (h1.mpr hc)
        · by_contra hc
          exact hok.2 (h2.mpr hc)
      · intro _
        rfl
    · simp only [Except.isOk]
      constructor
      · intro h
        simp [Except.toBool] at h
      · intro hall
        obtain ⟨hm, ho⟩ := firstMissing_some hfm
        obtain ⟨h1, h2⟩ := hfields p0 hm
        obtain ⟨hx, ha⟩ := hall p0 hm
        rcases ho with ho | ho
        · exact absurd hx (h1.mp ho)
        · exact absurd ha (h2.mp ho)
  · intro p hfm
    rw [parse_player_stats_unfolded raw ps hne hfold, hfm]

/-- C7 (counterexample): a document in which player 1 receives two XP rows
parses successfully (the second row's values win), refuting "exactly one XP
row" as a necessary condition for success. -/
theorem c7_counterexample :
    parse_player_stats c7cdoc =
      .ok [⟨"A", 1, some 5, some 6, some 7, some 8, some 9, some 10,
        some 11, some 12, []⟩] ∧
    ((docLines c7cdoc).filter (rowFor 1 ("XP".data))).length = 2 := by
  constructor
  · decide
  · decide

/-- Witness for the amended C7: the single-player document missing its
Recent-games row fails with the ValidationError naming the player, its id
and the missing row type. -/
theorem c7_required_rows_amended_witness :
    parse_player_stats c7wdoc =
      .error (.validation
        ("Player " ++ qc ++ "A" ++ qc ++ " (ID: 1) missing Recent games row")) := by
  have h := (c7_required_rows_amended c7wdoc [c7wplayer] (by decide)
    (by decide)).2.2 c7wplayer (by decide)
  exact h.trans (by decide)

/-! ### C10: a later summary row replaces the whole entry -/

theorem find?_replace_self (ts : List TournamentData) (td : TournamentData)
    (h : lookupT ts td.tournament_id ≠ none) :
    (ts.map fun t =>
        if t.tournament_id = td.tournament_id then td else t).find?
      (fun t => t.tournament_id == td.tournament_id) = some td := by
  induction ts with
  | nil => simp [lookupT] at h
  | cons t ts ih =>
    by_cases ht : t.tournament_id = td.tournament_id
    · simp only [List.map_cons, if_pos ht]
      exact List.find?_cons_of_pos _ (by simp)
    · simp only [List.map_cons, if_neg ht]
      rw [List.find?_cons_of_neg _ (by simp [ht])]
      apply ih
      unfold lookupT at h ⊢
      rw [List.find?_cons_of_neg _ (by simp [ht])] at h
      exact h

theorem lookupT_putT_self (ts : List TournamentData) (td : TournamentData) :
    lookupT (putT ts td) td.tournament_id = some td := by
  unfold putT
  split_ifs with h
  · unfold lookupT at h ⊢
    rw [List.find?_append, h]
    simp
  · exact find?_replace_self ts td h

theorem find?_replace_other (ts : List TournamentData) (td : TournamentData)
    (tid : Int) (hne : td.tournament_id ≠ tid) :
    (ts.map fun t =>
        if t.tournament_id = td.tournament_id then td else t).find?
      (fun t => t.tournament_id == tid) =
    ts.find? (fun t => t.tournament_id == tid) := by
  induction ts with
  | nil => rfl
  | cons t ts ih =>
    by_cases ht : t.tournament_id = td.tournament_id
    · simp only [List.map_cons, if_pos ht]
      rw [List.find?_cons_of_neg _ (by simp [hne]),
          List.find?_cons_of_neg _ (by rw [ht]; simp [hne])]
      exact ih
    · simp only [List.map_cons, if_neg ht]
      by_cases hp : t.tournament_id = tid
      · rw [List.find?_cons_of_pos _ (by simp [hp]),
            List.find?_cons_of_pos _ (by simp [hp])]
      · rw [List.find?_cons_of_neg _ (by simp [hp]),
            List.find?_cons_of_neg _ (by simp [hp])]
        exact ih

theorem lookupT_putT_other (ts : List TournamentData) (td : TournamentData)
    (tid : Int) (hne : td.tournament_id ≠ tid) :
    lookupT (putT ts td) tid = lookupT ts tid := by
  unfold putT
  split_ifs with h
  · unfold lookupT
    rw [List.find?_append]
    cases hf : List.find? (fun t => t.tournament_id == tid) ts with
    | some t0 => simp [hf]
    | none =>
      have hb : (td.tournament_id == tid) = false := by simp [hne]
      simp [hf, List.find?, hb]
  · exact find?_replace_other ts td tid hne

theorem tsFold_append (xs ys : List (List Char)) :
    ∀ (ts : List TournamentData) (k : Nat),
      tsFold ts k (xs ++ ys) =
        match tsFold ts k xs with
        | .error e => .error e
        | .ok ts2 => tsFold ts2 (k + xs.length) ys := by
  induction xs with
  | nil => intro ts k; simp [tsFold]
  | cons x xs ih =>
    intro ts k
    simp only [List.cons_append, tsFold]
    cases tsStep ts k x with
    | error e => rfl
    | ok ts2 =>
      dsimp only
      rw [List.append_eq, ih ts2 (k + 1)]
      simp only [List.length_cons]
      have harith : k + 1 + xs.length = k + (xs.length + 1) := by omega
      rw [harith]

theorem summaryVal_tid {cols : List (List Char)} {td : TournamentData}
    (h : summaryVal cols = some td) :
    pyInt? (col cols 0) = some td.tournament_id ∧ td.«matches» = [] := by
  unfold summaryVal at h
  rcases h0 : pyInt? (col cols 0) with _ | v0 <;> rw [h0] at h
  · simp at h
  rcases h6 : pyInt? (col cols 6) with _ | v6 <;> rw [h6] at h
  · simp at h
  rcases h7 : pyInt? (col cols 7) with _ | v7 <;> rw [h7] at h
  · simp at h
  rcases h8 : pyInt? (col cols 8) with _ | v8 <;> rw [h8] at h
  · simp at h
  rcases h9 : pyInt? (col cols 9) with _ | v9 <;> rw [h9] at h
  · simp at h
  rcases h10 : pyInt? (col cols 10) with _ | v10 <;> rw [h10] at h
  · simp at h
  simp only [Option.some.injEq] at h
  rw [← h]
  exact ⟨rfl, rfl⟩

/-- Invariant of the tournament row loop: once tournament `tid` has entry
`td0` and no later line is a summary row for `tid`, the loop only appends the
later match rows of `tid` to that entry. -/
theorem tsFold_entry (tid : Int) :
    ∀ (ls : List (List Char)) (ts : List TournamentData) (k : Nat)
      (res : List TournamentData) (td0 : TournamentData),
      tsFold ts k ls = .ok res →
      lookupT ts tid = some td0 →
      (∀ l ∈ ls, ¬ isSummaryRowFor tid l) →
      lookupT res tid =
        some { td0 with «matches» := td0.«matches» ++ matchRowsFor tid ls } := by
  intro ls
  induction ls with
  | nil =>
    intro ts k res td0 hfold hl _
    simp only [tsFold] at hfold
    injection hfold with hfold
    subst hfold
    rw [hl]
    simp [matchRowsFor]
  | cons l ls ih =>
    intro ts k res td0 hfold hl hno
    simp only [tsFold] at hfold
    rcases hstep : tsStep ts k l with e | ts2 <;> rw [hstep] at hfold
    · exact absurd hfold (by simp)
    have hnol : ¬ isSummaryRowFor tid l := hno l (List.mem_cons_self _ _)
    have hnols : ∀ x ∈ ls, ¬ isSummaryRowFor tid x :=
      fun x hx => hno x (List.mem_cons_of_mem _ hx)
    unfold tsStep at hstep
    by_cases hb : pyStrip l = []
    · rw [if_pos hb] at hstep
      injection hstep with hstep
      have hrows : matchRowsFor tid (l :: ls) = matchRowsFor tid ls := by
        simp only [matchRowsFor, List.filterMap_cons]
        rw [if_pos hb]
      rw [hrows]
      exact ih _ (k + 1) res td0 (hstep ▸ hfold) hl hnols
    rw [if_neg hb] at hstep
    by_cases h4 : (pySplit '\t' (pyStrip l)).length < 4
    · rw [if_pos h4] at hstep
      exact absurd hstep (by simp)
    rw [if_neg h4] at hstep
    rcases hid : pyInt? (pyStrip (col (pySplit '\t' (pyStrip l)) 0)) with _ | tid2
      <;> simp only [hid] at hstep
    · exact absurd hstep (by simp)
    by_cases h11 : (pySplit '\t' (pyStrip l)).length = 11
    · -- summary row for a different tournament id
      rw [if_pos h11] at hstep
      rcases hsv : summaryVal (pySplit '\t' (pyStrip l)) with _ | td2
        <;> simp only [hsv] at hstep
      · exact absurd hstep (by simp)
      injection hstep with hstep
      subst hstep
      have htd2 : td2.tournament_id = tid2 := by
        have h0 := (summaryVal_tid hsv).1
        rw [← pyInt?_pyStrip] at h0
        rw [h0] at hid
        injection hid
      have hne : td2.tournament_id ≠ tid := by
        intro hcontra
        exact hnol ⟨hb, h11, by rw [hid, ← htd2, hcontra]⟩
      have hrows : matchRowsFor tid (l :: ls) = matchRowsFor tid ls := by
        simp only [matchRowsFor, List.filterMap_cons]
        rw [if_neg hb, if_neg (by omega), if_pos h11]
      rw [hrows]
      exact ih _ (k + 1) res td0 hfold
        (by rw [lookupT_putT_other _ _ _ hne]; exact hl) hnols
    · -- match row
      rw [if_neg h11] at hstep
      rcases hlk : lookupT ts tid2 with _ | td3 <;> simp only [hlk] at hstep
      · exact absurd hstep (by simp)
      rcases hmr : matchRowVal (pySplit '\t' (pyStrip l)) with eo | md
        <;> simp only [hmr] at hstep
      · rcases eo with _ | lbad <;> exact absurd hstep (by simp)
      injection hstep with hstep
      subst hstep
      by_cases htid : tid2 = tid
      · -- a match row of our tournament: it is appended to the entry
        subst htid
        have htd3 : td3 = td0 := by rw [hlk] at hl; injection hl
        subst htd3
        have htid3 : td3.tournament_id = tid2 := by
          have := List.find?_some hlk
          simpa using this
        have hrows : matchRowsFor tid2 (l :: ls) =
            md :: matchRowsFor tid2 ls := by
          simp only [matchRowsFor, List.filterMap_cons]
          rw [if_neg hb, if_neg (by omega)]
          rw [if_neg h11, if_pos hid, hmr]
          rfl
        rw [hrows]
        have hlk2 : lookupT (putT ts { td3 with «matches» := td3.«matches» ++ [md] })
            tid2 = some { td3 with «matches» := td3.«matches» ++ [md] } := by
          have := lookupT_putT_self ts { td3 with «matches» := td3.«matches» ++ [md] }
          simpa [htid3] using this
        have := ih _ (k + 1) res { td3 with «matches» := td3.«matches» ++ [md] }
          hfold hlk2 hnols
        simpa [List.append_assoc] using this
      · -- a match row of another tournament
        have htd3 : td3.tournament_id = tid2 := by
          have := List.find?_some hlk
          simpa using this
        have hrows : matchRowsFor tid (l :: ls) = matchRowsFor tid ls := by
          simp only [matchRowsFor, List.filterMap_cons]
          rw [if_neg hb, if_neg (by omega), if_neg h11,
            if_neg (by rw [hid]; simp [htid])]
        rw [hrows]
        exact ih _ (k + 1) res td0 hfold
          (by rw [lookupT_putT_other _ _ _ (by rw [htd3]; exact htid)]; exact hl)
          hnols

/-- C10: if a tournament-stats document contains a summary row `L` for
tournament `tid` and no later summary row for `tid`, the returned record for
`tid` is exactly `L`'s attribute values together with only the match rows for
`tid` that appear after `L` — anything parsed for `tid` before `L` (its first
summary and any match rows between the two) is discarded. -/
theorem c10_second_summary_wins (raw : String) (l1 l2 : List (List Char))
    (L : List Char) (td : TournamentData) (ts : List TournamentData)
    (hsplit : docLines raw = l1 ++ L :: l2)
    (hnb : pyStrip L ≠ [])
    (hlen : (pySplit '\t' (pyStrip L)).length = 11)
    (hsum : summaryVal (pySplit '\t' (pyStrip L)) = some td)
    (hno : ∀ l ∈ l2, ¬ isSummaryRowFor td.tournament_id l)
    (hok : parse_tournament_stats raw = .ok ts) :
    lookupT ts td.tournament_id =
      some { td with «matches» := matchRowsFor td.tournament_id l2 } := by
  unfold parse_tournament_stats at hok
  have hfold : tsFold [] 1 (pySplit '\n' (pyStrip raw.data)) = .ok ts := by
    by_cases hraw : pyStrip raw.data = []
    · rw [if_pos hraw] at hok
      exact absurd hok (by simp)
    · rw [if_neg hraw] at hok
      rcases hf : tsFold [] 1 (pySplit '\n' (pyStrip raw.data)) with e | ts0
        <;> simp only [hf] at hok
      · exact absurd hok (by simp)
      · split_ifs at hok with h
        injection hok with hok
        rw [hok]
  have hsplit2 : pySplit '\n' (pyStrip raw.data) = l1 ++ L :: l2 := hsplit
  rw [hsplit2, tsFold_append] at hfold
  rcases hfold1 : tsFold [] 1 l1 with e | ts1 <;> rw [hfold1] at hfold
  · exact absurd hfold (by simp)
  simp only [tsFold] at hfold
  rcases hstep : tsStep ts1 (1 + l1.length) L with e | ts2
    <;> rw [hstep] at hfold
  · exact absurd hfold (by simp)
  -- the step on L installs exactly td
  have hts2 : ts2 = putT ts1 td := by
    unfold tsStep at hstep
    rw [if_neg hnb, if_neg (by omega)] at hstep
    have hid : pyInt? (pyStrip (col (pySplit '\t' (pyStrip L)) 0)) =
        some td.tournament_id := by
      rw [pyInt?_pyStrip]
      exact (summaryVal_tid hsum).1
    simp only [hid] at hstep
    rw [if_pos hlen] at hstep
    simp only [hsum] at hstep
    injection hstep with h
    exact h.symm
  subst hts2
  have hl : lookupT (putT ts1 td) td.tournament_id = some td :=
    lookupT_putT_self ts1 td
  have := tsFold_entry td.tournament_id l2 (putT ts1 td) (1 + l1.length + 1)
    ts td hfold hl hno
  rw [(summaryVal_tid hsum).2] at this
  simpa using this

/-- Witness for C10: in `c10raw` the second summary for tournament 1 replaces
the first entirely — the result keeps the second summary's attributes and only
the match row after it (table 200); the match row for table 100 parsed before
it is discarded. -/
theorem c10_second_summary_wins_witness :
    parse_tournament_stats c10raw = .ok c10ts ∧
    lookupT c10ts 1 =
      some ⟨1, "B", "go", "s2", "e2", 9, 8, 7, 1, 6,
        [⟨200, true, 75, [⟨"Q", -3, 9⟩]⟩]⟩ := by
  refine ⟨by decide, ?_⟩
  have h := c10_second_summary_wins c10raw c10l1 c10l2 c10L c10td c10ts
    (by decide) (by decide) (by decide) (by decide) (by decide) (by decide)
  exact h.trans (by decide)

/-! ### C6: placeholder id allocation -/

theorem negMin_go :
    ∀ (l : List Int) (acc : Option Int) (m : Int),
      l.foldl negStep acc = some m →
      (∀ a, acc = some a → a < 0) →
      m < 0 ∧ (∀ x ∈ l, x < 0 → m ≤ x) ∧ ∀ a, acc = some a → m ≤ a
  | [], acc, m => by
    intro h hacc
    simp only [List.foldl_nil] at h
    refine ⟨hacc m h, by simp, fun a ha => ?_⟩
    rw [h] at ha
    injection ha with ha
    omega
  | x :: l, acc, m => by
    intro h hacc
    simp only [List.foldl_cons] at h
    have hstep : ∀ a, negStep acc x = some a → a < 0 := by
      intro a ha
      unfold negStep at ha
      by_cases hx : x < 0
      · rw [if_pos hx] at ha
        cases acc with
        | none =>
          injection ha with ha
          omega
        | some m0 =>
          have hm0 := hacc m0 rfl
          injection ha with ha
          by_cases hxm : x < m0
          · rw [if_pos hxm] at ha
            omega
          · rw [if_neg hxm] at ha
            omega
      · rw [if_neg hx] at ha
        exact hacc a ha
    obtain ⟨h1, h2, h3⟩ := negMin_go l (negStep acc x) m h hstep
    refine ⟨h1, ?_, ?_⟩
    · intro y hy hyneg
      rcases List.mem_cons.mp hy with hxy | hy2
      · subst hxy
        cases hav : acc with
        | none =>
          exact h3 y (by rw [hav]; simp [negStep, hyneg])
        | some m0 =>
          by_cases hxm : y < m0
          · exact h3 y (by rw [hav]; simp [negStep, hyneg, hxm])
          · have := h3 m0 (by rw [hav]; simp [negStep, hyneg, hxm])
            omega
      · exact h2 y hy2 hyneg
    · intro a ha
      by_cases hx : x < 0
      · by_cases hxa : x < a
        · have := h3 x (by rw [ha]; simp [negStep, hx, hxa])
          omega
        · exact h3 a (by rw [ha]; simp [negStep, hx, hxa])
      · exact h3 a (by rw [ha]; simp [negStep, hx])

theorem negMin_none_all :
    ∀ (l : List Int), (∀ x ∈ l, ¬ x < 0) → l.foldl negStep none = none
  | [] => by intro _; rfl
  | x :: l => by
    intro h
    have hx : ¬ x < 0 := h x (List.mem_cons_self x l)
    simp only [List.foldl_cons]
    have hst : negStep none x = none := by simp [negStep, hx]
    rw [hst]
    exact negMin_none_all l fun y hy => h y (List.mem_cons_of_mem x hy)

theorem negMin_eq_none :
    ∀ (l : List Int) (acc : Option Int), l.foldl negStep acc = none →
      acc = none ∧ ∀ x ∈ l, ¬ x < 0
  | [], acc => by
    intro h
    simp only [List.foldl_nil] at h
    exact ⟨h, by simp⟩
  | x :: l, acc => by
    intro h
    simp only [List.foldl_cons] at h
    obtain ⟨h1, h2⟩ := negMin_eq_none l (negStep acc x) h
    have hx : ¬ x < 0 := by
      intro hneg
      unfold negStep at h1
      rw [if_pos hneg] at h1
      cases acc <;> simp at h1
    refine ⟨?_, ?_⟩
    · have hkeep : negStep acc x = acc := by simp [negStep, hx]
      rw [hkeep] at h1
      exact h1
    · intro y hy
      rcases List.mem_cons.mp hy with hxy | hy2
      · subst hxy
        exact hx
      · exact h2 y hy2

theorem nextPlaceholder0_neg (s : Store) : nextPlaceholder0 s < 0 := by
  unfold nextPlaceholder0
  cases h : negMin (s.games.map fun g => g.bga_game_id) with
  | none => decide
  | some m =>
    obtain ⟨h1, -, -⟩ := negMin_go _ none m h (by intro a ha; exact absurd ha (by simp))
    show m - 1 < 0
    omega

theorem nextPlaceholder0_lt (s : Store) :
    ∀ g ∈ s.games, g.bga_game_id < 0 → nextPlaceholder0 s < g.bga_game_id := by
  intro g hg hneg
  unfold nextPlaceholder0
  cases h : negMin (s.games.map fun g => g.bga_game_id) with
  | none =>
    obtain ⟨-, hall⟩ := negMin_eq_none _ none h
    exact absurd hneg (hall _ (List.mem_map_of_mem _ hg))
  | some m =>
    obtain ⟨-, h2, -⟩ := negMin_go _ none m h (by intro a ha; exact absurd ha (by simp))
    have := h2 _ (List.mem_map_of_mem _ hg) hneg
    show m - 1 < g.bga_game_id
    omega

theorem nextPlaceholder0_none (s : Store)
    (h : ∀ g ∈ s.games, ¬ g.bga_game_id < 0) : nextPlaceholder0 s = -1 := by
  unfold nextPlaceholder0
  have hn : negMin (s.games.map fun g => g.bga_game_id) = none := by
    unfold negMin
    refine negMin_none_all _ ?_
    intro x hx
    obtain ⟨g, hg, rfl⟩ := List.mem_map.mp hx
    exact h g hg
  rw [hn]

theorem decList_succ (a : Int) (k : Nat) :
    decList a (k + 1) = a :: decList (a - 1) k := by
  unfold decList
  rw [List.range_succ_eq_map]
  simp only [List.map_cons, List.map_map, Nat.cast_zero, sub_zero]
  refine congrArg (a :: ·) ?_
  apply List.map_congr_left
  intro i _
  simp only [Function.comp_apply]
  push_cast
  ring

theorem decList_append : ∀ (m : Nat) (a : Int) (k : Nat),
    decList a (m + k) = decList a m ++ decList (a - m) k
  | 0, a, k => by
    simp only [Nat.zero_add, Nat.cast_zero, sub_zero]
    rfl
  | m + 1, a, k => by
    have hc : m + 1 + k = (m + k) + 1 := by omega
    rw [hc, decList_succ, decList_succ, decList_append m (a - 1) k]
    simp only [List.cons_append]
    have h2 : a - 1 - (m : Int) = a - ((m + 1 : Nat) : Int) := by push_cast; ring
    rw [h2]

theorem mem_decList {a b : Int} {k : Nat} (h : b ∈ decList a k) :
    a - k < b ∧ b ≤ a := by
  unfold decList at h
  obtain ⟨i, hi, rfl⟩ := List.mem_map.mp h
  rw [List.mem_range] at hi
  omega

theorem decList_pairwise (a : Int) (k : Nat) :
    List.Pairwise (fun x y => y < x) (decList a k) := by
  unfold decList
  rw [List.pairwise_map]
  refine (List.pairwise_lt_range k).imp ?_
  intro i j hij
  omega

theorem upsertStat_games (s : Store) (pid gid : Nat) (g : GameStatData) :
    (upsertStat s pid gid g).1.games = s.games := by
  unfold upsertStat
  cases h : firstStatRec s pid gid <;> rfl

theorem upsertStat_players (s : Store) (pid gid : Nat) (g : GameStatData) :
    (upsertStat s pid gid g).1.players = s.players := by
  unfold upsertStat
  cases h : firstStatRec s pid gid <;> rfl

theorem upsertPlayer_games (s : Store) (p : PlayerData) :
    (upsertPlayer s p).1.games = s.games := by
  unfold upsertPlayer
  cases h : firstPlayerRec s p.bga_player_id <;> rfl

theorem upsertPlayer_stats (s : Store) (p : PlayerData) :
    (upsertPlayer s p).1.stats = s.stats := by
  unfold upsertPlayer
  cases h : firstPlayerRec s p.bga_player_id <;> rfl

theorem firstGameRec_congr {s1 s2 : Store} (h : s1.games = s2.games) :
    ∀ n, firstGameRec s1 n = firstGameRec s2 n := by
  intro n
  unfold firstGameRec
  rw [h]

theorem newNamesAux_congr (f : String → Bool) :
    ∀ (ns s1 s2 : List String), (∀ x, x ∈ s1 ↔ x ∈ s2) →
      newNamesAux f s1 ns = newNamesAux f s2 ns
  | [], _, _ => by intro _; rfl
  | n :: ns, s1, s2 => by
    intro h
    simp only [newNamesAux]
    by_cases hc : f n = true ∨ n ∈ s1
    · rw [if_pos hc, if_pos (by
        rcases hc with hc | hc
        · exact Or.inl hc
        · exact Or.inr ((h n).mp hc))]
      exact newNamesAux_congr f ns s1 s2 h
    · rw [if_neg hc, if_neg (by
        intro hc2
        apply hc
        rcases hc2 with hc2 | hc2
        · exact Or.inl hc2
        · exact Or.inr ((h n).mpr hc2))]
      rw [newNamesAux_congr f ns (n :: s1) (n :: s2) (by
        intro x
        simp only [List.mem_cons]
        constructor
        · rintro (hx | hx)
          · exact Or.inl hx
          · exact Or.inr ((h x).mp hx)
        · rintro (hx | hx)
          · exact Or.inl hx
          · exact Or.inr ((h x).mpr hx))]

theorem newNamesAux_append (f : String → Bool) :
    ∀ (xs ys seen : List String),
      newNamesAux f seen (xs ++ ys) =
        newNamesAux f seen xs ++
          newNamesAux f (newNamesAux f seen xs ++ seen) ys
  | [], ys, seen => by simp [newNamesAux]
  | x :: xs, ys, seen => by
    simp only [List.cons_append]
    simp only [newNamesAux]
    by_cases hc : f x = true ∨ x ∈ seen
    · simp only [if_pos hc]
      exact newNamesAux_append f xs ys seen
    · simp only [if_neg hc]
      rw [newNamesAux_append f xs ys (x :: seen)]
      rw [newNamesAux_congr f ys (newNamesAux f (x :: seen) xs ++ (x :: seen))
        ((x :: newNamesAux f (x :: seen) xs) ++ seen) (by
          intro z
          simp only [List.mem_append, List.mem_cons]
          tauto)]
      simp [List.cons_append]

theorem newNamesAux_props (f : String → Bool) :
    ∀ (ns seen : List String),
      (newNamesAux f seen ns).Nodup ∧
      ∀ x ∈ newNamesAux f seen ns, f x = false ∧ x ∉ seen
  | [], seen => by simp [newNamesAux]
  | n :: ns, seen => by
    simp only [newNamesAux]
    by_cases hc : f n = true ∨ n ∈ seen
    · rw [if_pos hc]
      exact newNamesAux_props f ns seen
    · rw [if_neg hc]
      obtain ⟨h1, h2⟩ := newNamesAux_props f ns (n :: seen)
      push_neg at hc
      refine ⟨?_, ?_⟩
      · rw [List.nodup_cons]
        refine ⟨?_, h1⟩
        intro hmem
        exact (h2 n hmem).2 (List.mem_cons_self n seen)
      · intro x hx
        rcases List.mem_cons.mp hx with hxn | hx2
        · subst hxn
          refine ⟨?_, hc.2⟩
          cases hfx : f x with
          | true => exact absurd hfx hc.1
          | false => rfl
        · have hp := h2 x hx2
          exact ⟨hp.1, fun hxs => hp.2 (List.mem_cons_of_mem n hxs)⟩

theorem gsLoop_alloc (pid : Nat) (inS : String → Bool) :
    ∀ (gs : List GameStatData) (s : Store) (next : Int) (seen : List String),
      (∀ n, (firstGameRec s n).isSome = true ↔ (inS n = true ∨ n ∈ seen)) →
      ∃ t : List GameRec,
        (gsLoop s next pid gs).1.games = s.games ++ t ∧
        (t.map fun g => g.name) =
          newNamesAux inS seen (gs.map fun g => g.game_name) ∧
        (t.map fun g => g.bga_game_id) = decList next t.length ∧
        (gsLoop s next pid gs).2.1 = next - t.length ∧
        (∀ g ∈ t, g.status = "unknown" ∧ g.premium = false) ∧
        (∀ n, (firstGameRec (gsLoop s next pid gs).1 n).isSome = true ↔
          (inS n = true ∨ n ∈ (t.map fun g => g.name) ++ seen))
  | [], s, next, seen => by
    intro hchar
    refine ⟨[], by simp [gsLoop], by simp [newNamesAux], by simp [decList],
      by simp [gsLoop], by simp, ?_⟩
    intro n
    simpa [gsLoop] using hchar n
  | g :: gs, s, next, seen => by
    intro hchar
    cases hf : firstGameRec s g.game_name with
    | some g0 =>
      have hskip : inS g.game_name = true ∨ g.game_name ∈ seen :=
        (hchar g.game_name).mp (by rw [hf]; rfl)
      have hg1 : upsertGame s next g.game_name = (s, g0.id, next, 0) := by
        unfold upsertGame
        rw [hf]
      obtain ⟨t, h1, h2, h3, h4, h5, h6⟩ :=
        gsLoop_alloc pid inS gs (upsertStat s pid g0.id g).1 next seen (by
          intro n
          rw [firstGameRec_congr (upsertStat_games s pid g0.id g) n]
          exact hchar n)
      have key :
          (gsLoop s next pid (g :: gs)).1 =
            (gsLoop (upsertStat s pid g0.id g).1 next pid gs).1 ∧
          (gsLoop s next pid (g :: gs)).2.1 =
            (gsLoop (upsertStat s pid g0.id g).1 next pid gs).2.1 := by
        constructor <;> simp only [gsLoop, hg1]
      refine ⟨t, ?_, ?_, h3, ?_, h5, ?_⟩
      · rw [key.1, h1, upsertStat_games]
      · simp only [List.map_cons, newNamesAux]
        rw [if_pos hskip]
        exact h2
      · rw [key.2, h4]
      · intro n
        rw [key.1]
        exact h6 n
    | none =>
      have hnotin : ¬ (inS g.game_name = true ∨ g.game_name ∈ seen) := by
        intro hcon
        have hcc := (hchar g.game_name).mpr hcon
        rw [hf] at hcc
        simp at hcc
      have hg1 : upsertGame s next g.game_name =
          ({ s with nextId := s.nextId + 1,
                    games := s.games ++ [placeholderGame s next g.game_name] },
           s.nextId, next - 1, 1) := by
        unfold upsertGame
        rw [hf]
      have hchar2 : ∀ n, (firstGameRec (upsertStat
            { s with nextId := s.nextId + 1,
                     games := s.games ++ [placeholderGame s next g.game_name] }
            pid s.nextId g).1 n).isSome = true ↔
          (inS n = true ∨ n ∈ g.game_name :: seen) := by
        intro n
        rw [firstGameRec_congr (upsertStat_games _ pid s.nextId g) n]
        unfold firstGameRec
        dsimp only
        rw [List.find?_append, Option.isSome_or]
        have hold : (List.find? (fun g2 => g2.name == n) s.games).isSome = true ↔
            (inS n = true ∨ n ∈ seen) := hchar n
        constructor
        · intro hh
          rcases Bool.or_eq_true_iff.mp hh with hh1 | hh2
          · rcases hold.mp hh1 with hi | hi
            · exact Or.inl hi
            · exact Or.inr (List.mem_cons_of_mem _ hi)
          · have hx := List.find?_isSome.mp hh2
            obtain ⟨x, hx1, hx2⟩ := hx
            have hxe : x = placeholderGame s next g.game_name := by simpa using hx1
            subst hxe
            have hname : g.game_name = n := by
              simpa [placeholderGame] using hx2
            exact Or.inr (by rw [← hname]; exact List.mem_cons_self _ _)
        · intro hh
          apply Bool.or_eq_true_iff.mpr
          rcases hh with hi | hi
          · exact Or.inl (hold.mpr (Or.inl hi))
          · rcases List.mem_cons.mp hi with hi2 | hi2
            · refine Or.inr (List.find?_isSome.mpr ?_)
              refine ⟨placeholderGame s next g.game_name, by simp, ?_⟩
              simp [placeholderGame, hi2]
            · exact Or.inl (hold.mpr (Or.inr hi2))
      obtain ⟨t, h1, h2, h3, h4, h5, h6⟩ :=
        gsLoop_alloc pid inS gs
          (upsertStat
            { s with nextId := s.nextId + 1,
                     games := s.games ++ [placeholderGame s next g.game_name] }
            pid s.nextId g).1
          (next - 1) (g.game_name :: seen) hchar2
      have key :
          (gsLoop s next pid (g :: gs)).1 =
            (gsLoop (upsertStat
              { s with nextId := s.nextId + 1,
                       games := s.games ++ [placeholderGame s next g.game_name] }
              pid s.nextId g).1 (next - 1) pid gs).1 ∧
          (gsLoop s next pid (g :: gs)).2.1 =
            (gsLoop (upsertStat
              { s with nextId := s.nextId + 1,
                       games := s.games ++ [placeholderGame s next g.game_name] }
              pid s.nextId g).1 (next - 1) pid gs).2.1 := by
        constructor <;> simp only [gsLoop, hg1]
      refine ⟨placeholderGame s next g.game_name :: t, ?_, ?_, ?_, ?_, ?_, ?_⟩
      · rw [key.1, h1, upsertStat_games]
        dsimp only
        rw [List.append_assoc]
        rfl
      · simp only [List.map_cons, newNamesAux]
        rw [if_neg hnotin, h2]
        rfl
      · simp only [List.map_cons, List.length_cons]
        rw [h3, decList_succ]
        rfl
      · rw [key.2, h4]
        simp only [List.length_cons]
        push_cast
        ring
      · intro g2 hg2
        rcases List.mem_cons.mp hg2 with hh | hh
        · subst hh
          exact ⟨rfl, rfl⟩
        · exact h5 g2 hh
      · intro n
        rw [key.1, h6 n]
        simp only [List.map_cons, List.mem_cons, List.mem_append]
        tauto

theorem docGameNames_cons (p : PlayerData) (pd : List PlayerData) :
    docGameNames (p :: pd) =
      (p.game_stats.map fun g => g.game_name) ++ docGameNames pd := by
  simp [docGameNames]

theorem playersLoop_alloc (inS : String → Bool) :
    ∀ (pd : List PlayerData) (s : Store) (next : Int) (seen : List String),
      (∀ n, (firstGameRec s n).isSome = true ↔ (inS n = true ∨ n ∈ seen)) →
      ∃ t : List GameRec,
        (playersLoop s next pd).1.games = s.games ++ t ∧
        (t.map fun g => g.name) = newNamesAux inS seen (docGameNames pd) ∧
        (t.map fun g => g.bga_game_id) = decList next t.length ∧
        (playersLoop s next pd).2.1 = next - t.length ∧
        (∀ g ∈ t, g.status = "unknown" ∧ g.premium = false) ∧
        (∀ n, (firstGameRec (playersLoop s next pd).1 n).isSome = true ↔
          (inS n = true ∨ n ∈ (t.map fun g => g.name) ++ seen))
  | [], s, next, seen => by
    intro hchar
    refine ⟨[], by simp [playersLoop], by simp [docGameNames, newNamesAux],
      by simp [decList], by simp [playersLoop], by simp, ?_⟩
    intro n
    simpa [playersLoop] using hchar n
  | p :: pd, s, next, seen => by
    intro hchar
    obtain ⟨t1, g1, g2, g3, g4, g5, g6⟩ :=
      gsLoop_alloc (upsertPlayer s p).2.1 inS p.game_stats (upsertPlayer s p).1
        next seen (by
          intro n
          rw [firstGameRec_congr (upsertPlayer_games s p) n]
          exact hchar n)
    obtain ⟨t2, k1, k2, k3, k4, k5, k6⟩ :=
      playersLoop_alloc inS pd
        (gsLoop (upsertPlayer s p).1 next (upsertPlayer s p).2.1 p.game_stats).1
        (gsLoop (upsertPlayer s p).1 next (upsertPlayer s p).2.1 p.game_stats).2.1
        ((t1.map fun g => g.name) ++ seen) g6
    have key :
        (playersLoop s next (p :: pd)).1 =
          (playersLoop
            (gsLoop (upsertPlayer s p).1 next (upsertPlayer s p).2.1
              p.game_stats).1
            (gsLoop (upsertPlayer s p).1 next (upsertPlayer s p).2.1
              p.game_stats).2.1 pd).1 ∧
        (playersLoop s next (p :: pd)).2.1 =
          (playersLoop
            (gsLoop (upsertPlayer s p).1 next (upsertPlayer s p).2.1
              p.game_stats).1
            (gsLoop (upsertPlayer s p).1 next (upsertPlayer s p).2.1
              p.game_stats).2.1 pd).2.1 := by
      constructor <;> simp only [playersLoop]
    refine ⟨t1 ++ t2, ?_, ?_, ?_, ?_, ?_, ?_⟩
    · rw [key.1, k1, g1, upsertPlayer_games, List.append_assoc]
    · rw [List.map_append, k2, g2, docGameNames_cons, newNamesAux_append]
    · rw [List.map_append, k3, g4, g3, List.length_append, decList_append]
    · rw [key.2, k4, g4, List.length_append]
      push_cast
      ring
    · intro g hg
      rcases List.mem_append.mp hg with hh | hh
      · exact g5 g hh
      · exact k5 g hh
    · intro n
      rw [key.1, k6 n]
      simp only [List.map_append, List.mem_append]
      tauto

/-- C6: a player-stats import appends to the game table exactly one placeholder
row per distinct document game name that is not already stored, in
first-occurrence order; the allocated `bga_game_id`s count down one by one from
one less than the least placeholder already in the store (from `-1` when it has
none), so they are pairwise distinct, negative, strictly decreasing in
allocation order, and strictly below every placeholder id already present;
every created placeholder has status "unknown" and premium `false`. -/
theorem c6_placeholder_allocation (s : Store) (pd : List PlayerData) :
    ∃ t : List GameRec,
      (import_player_stats s pd).1.games = s.games ++ t ∧
      (t.map fun g => g.name) = placeholderNames s pd ∧
      (t.map fun g => g.name).Nodup ∧
      (∀ g ∈ t, (firstGameRec s g.name).isSome = false) ∧
      (t.map fun g => g.bga_game_id) = decList (nextPlaceholder0 s) t.length ∧
      List.Pairwise (fun g1 g2 => g2.bga_game_id < g1.bga_game_id) t ∧
      (∀ g ∈ t, g.bga_game_id < 0 ∧ g.status = "unknown" ∧ g.premium = false ∧
        ∀ g0 ∈ s.games, g0.bga_game_id < 0 →
          g.bga_game_id < g0.bga_game_id) ∧
      ((∀ g0 ∈ s.games, ¬ g0.bga_game_id < 0) → nextPlaceholder0 s = -1) := by
  obtain ⟨t, h1, h2, h3, h4, h5, h6⟩ :=
    playersLoop_alloc (fun n => (firstGameRec s n).isSome) pd s
      (nextPlaceholder0 s) [] (by intro n; simp)
  refine ⟨t, ?_, ?_, ?_, ?_, h3, ?_, ?_, nextPlaceholder0_none s⟩
  · show (playersLoop s (nextPlaceholder0 s) pd).1.games = s.games ++ t
    exact h1
  · exact h2
  · rw [h2]
    exact (newNamesAux_props _ _ _).1
  · intro g hg
    have hmem : g.name ∈ newNamesAux (fun n => (firstGameRec s n).isSome) []
        (docGameNames pd) := by
      rw [← h2]
      exact List.mem_map_of_mem _ hg
    exact ((newNamesAux_props (fun n => (firstGameRec s n).isSome)
      (docGameNames pd) []).2 g.name hmem).1
  · have hp : List.Pairwise (fun x y => y < x)
        (t.map fun g => g.bga_game_id) := by
      rw [h3]
      exact decList_pairwise _ _
    exact List.pairwise_map.mp hp
  · intro g hg
    have hmem : g.bga_game_id ∈ decList (nextPlaceholder0 s) t.length := by
      rw [← h3]
      exact List.mem_map_of_mem _ hg
    obtain ⟨hlo, hhi⟩ := mem_decList hmem
    have hneg := nextPlaceholder0_neg s
    refine ⟨by omega, (h5 g hg).1, (h5 g hg).2, ?_⟩
    intro g0 hg0 hg0neg
    have hlt := nextPlaceholder0_lt s g0 hg0 hg0neg
    omega

/-! ### C3: idempotence of re-import -/

theorem upsertGame_players (s : Store) (next : Int) (gname : String) :
    (upsertGame s next gname).1.players = s.players := by
  unfold upsertGame
  cases h : firstGameRec s gname <;> rfl

theorem upsertGame_stats (s : Store) (next : Int) (gname : String) :
    (upsertGame s next gname).1.stats = s.stats := by
  unfold upsertGame
  cases h : firstGameRec s gname <;> rfl

theorem firstStatRec_congr {s1 s2 : Store} (h : s1.stats = s2.stats) :
    ∀ pid gid, firstStatRec s1 pid gid = firstStatRec s2 pid gid := by
  intro pid gid
  unfold firstStatRec
  rw [h]

theorem firstPlayerRec_congr {s1 s2 : Store} (h : s1.players = s2.players) :
    ∀ i, firstPlayerRec s1 i = firstPlayerRec s2 i := by
  intro i
  unfold firstPlayerRec
  rw [h]

theorem find?_prefix_some {α : Type} {p : α → Bool} {l1 : List α} {a : α}
    (h : List.find? p l1 = some a) (l2 : List α) :
    List.find? p (l1 ++ l2) = some a := by
  rw [List.find?_append, h, Option.or_some]

/-- The player upsert keeps the store well formed, touches only the player
table, finds the upserted row by its business key afterwards with exactly the
parsed values, and returns that row's surrogate id. -/
theorem upsertPlayer_spec (s : Store) (p : PlayerData) (hWF : Store.WF s) :
    Store.WF (upsertPlayer s p).1 ∧
    ∃ rec, firstPlayerRec (upsertPlayer s p).1 p.bga_player_id = some rec ∧
      rec.id = (upsertPlayer s p).2.1 ∧ playerAgrees rec p := by
  obtain ⟨hpn, hgn, hsn, hpb, hgb, hsb⟩ := hWF
  cases hf : firstPlayerRec s p.bga_player_id with
  | some r =>
    have hg1 : upsertPlayer s p =
        ({ s with players := s.players.map fun x =>
            if x.id = r.id then updPlayerRec x p else x }, r.id, false) := by
      unfold upsertPlayer
      rw [hf]
    rw [hg1]
    have hfind : firstPlayerRec
        { s with players := s.players.map fun x =>
            if x.id = r.id then updPlayerRec x p else x } p.bga_player_id =
        some (updPlayerRec r p) := by
      unfold firstPlayerRec
      dsimp only
      rw [find?_map_keyed (fun x => x.bga_player_id == p.bga_player_id)
        (fun x => x.id = r.id) (fun x => updPlayerRec x p) s.players
        (by intro b _; simp [updPlayerRec])]
      have hf2 : List.find? (fun x => x.bga_player_id == p.bga_player_id)
          s.players = some r := hf
      rw [hf2, Option.map_some']
      rw [if_pos rfl]
    refine ⟨?_, updPlayerRec r p, hfind, by simp [updPlayerRec],
      by simp [updPlayerRec, playerAgrees]⟩
    have hids : ((s.players.map fun x =>
        if x.id = r.id then updPlayerRec x p else x).map fun x => x.id) =
        s.players.map fun x => x.id := by
      rw [List.map_map]
      apply List.map_congr_left
      intro x _
      by_cases hx : x.id = r.id <;>
        simp [Function.comp_apply, hx, updPlayerRec]
    refine ⟨?_, hgn, hsn, ?_, hgb, hsb⟩
    · show ((s.players.map fun x =>
          if x.id = r.id then updPlayerRec x p else x).map fun x => x.id).Nodup
      rw [hids]
      exact hpn
    · intro r2 hr2
      obtain ⟨x, hx, rfl⟩ := List.mem_map.mp hr2
      show (if x.id = r.id then updPlayerRec x p else x).id < s.nextId
      by_cases hxr : x.id = r.id
      · rw [if_pos hxr]
        have hupd : (updPlayerRec x p).id = x.id := by simp [updPlayerRec]
        rw [hupd]
        exact hpb x hx
      · rw [if_neg hxr]
        exact hpb x hx
  | none =>
    have hg1 : upsertPlayer s p =
        ({ s with nextId := s.nextId + 1,
                  players := s.players ++ [playerRecOf s.nextId p] },
         s.nextId, true) := by
      unfold upsertPlayer
      rw [hf]
    rw [hg1]
    have hfind : firstPlayerRec
        { s with nextId := s.nextId + 1,
                 players := s.players ++ [playerRecOf s.nextId p] }
        p.bga_player_id = some (playerRecOf s.nextId p) := by
      unfold firstPlayerRec
      dsimp only
      rw [List.find?_append]
      have hf2 : List.find? (fun x => x.bga_player_id == p.bga_player_id)
          s.players = none := hf
      rw [hf2, Option.none_or]
      rw [List.find?_cons_of_pos _ (by simp [playerRecOf])]
    refine ⟨?_, playerRecOf s.nextId p, hfind, rfl,
      by simp [playerRecOf, playerAgrees]⟩
    refine ⟨?_, hgn, hsn, ?_, ?_, ?_⟩
    · show ((s.players ++ [playerRecOf s.nextId p]).map fun r => r.id).Nodup
      rw [List.map_append, List.nodup_append]
      refine ⟨hpn, by simp, ?_⟩
      intro a ha hb
      simp only [List.map_cons, List.map_nil, List.mem_singleton] at hb
      obtain ⟨x, hx, rfl⟩ := List.mem_map.mp ha
      have hxb := hpb x hx
      have hid : (playerRecOf s.nextId p).id = s.nextId := rfl
      rw [hid] at hb
      omega
    · intro r2 hr2
      show r2.id < s.nextId + 1
      rcases List.mem_append.mp hr2 with hh | hh
      · have := hpb r2 hh
        omega
      · have hr2e : r2 = playerRecOf s.nextId p := by simpa using hh
        subst hr2e
        show s.nextId < s.nextId + 1
        omega
    · intro r2 hr2
      show r2.id < s.nextId + 1
      have := hgb r2 hr2
      omega
    · intro r2 hr2
      show r2.id < s.nextId + 1
      have := hsb r2 hr2
      omega

/-- When the player already exists, the upsert returns the existing row's id
and reports an update, not a creation. -/
theorem upsertPlayer_found (s : Store) (p : PlayerData) (r : PlayerRec)
    (hf : firstPlayerRec s p.bga_player_id = some r) :
    (upsertPlayer s p).2.1 = r.id ∧ (upsertPlayer s p).2.2 = false := by
  unfold upsertPlayer
  rw [hf]
  exact ⟨rfl, rfl⟩

/-- The game lookup/placeholder step keeps the store well formed, only appends
to the game table, leaves players and stats alone, and afterwards finds a game
row with the requested name whose id it returned. -/
theorem upsertGame_spec (s : Store) (next : Int) (gname : String)
    (hWF : Store.WF s) :
    Store.WF (upsertGame s next gname).1 ∧
    (upsertGame s next gname).1.players = s.players ∧
    (upsertGame s next gname).1.stats = s.stats ∧
    (∃ pre, (upsertGame s next gname).1.games = s.games ++ pre) ∧
    ∃ gr, firstGameRec (upsertGame s next gname).1 gname = some gr ∧
      gr.id = (upsertGame s next gname).2.1 ∧
      gr ∈ (upsertGame s next gname).1.games ∧
      gr.id < (upsertGame s next gname).1.nextId := by
  obtain ⟨hpn, hgn, hsn, hpb, hgb, hsb⟩ := hWF
  cases hf : firstGameRec s gname with
  | some g0 =>
    have hg1 : upsertGame s next gname = (s, g0.id, next, 0) := by
      unfold upsertGame
      rw [hf]
    rw [hg1]
    exact ⟨⟨hpn, hgn, hsn, hpb, hgb, hsb⟩, rfl, rfl, ⟨[], by simp⟩,
      g0, hf, rfl, List.mem_of_find?_eq_some hf,
      hgb g0 (List.mem_of_find?_eq_some hf)⟩
  | none =>
    have hg1 : upsertGame s next gname =
        ({ s with nextId := s.nextId + 1,
                  games := s.games ++ [placeholderGame s next gname] },
         s.nextId, next - 1, 1) := by
      unfold upsertGame
      rw [hf]
    rw [hg1]
    have hfind : firstGameRec
        { s with nextId := s.nextId + 1,
                 games := s.games ++ [placeholderGame s next gname] } gname =
        some (placeholderGame s next gname) := by
      unfold firstGameRec
      dsimp only
      rw [List.find?_append]
      have hf2 : List.find? (fun g2 => g2.name == gname) s.games = none := hf
      rw [hf2, Option.none_or]
      rw [List.find?_cons_of_pos _ (by simp [placeholderGame])]
    refine ⟨?_, rfl, rfl, ⟨[placeholderGame s next gname], rfl⟩,
      placeholderGame s next gname, hfind, rfl,
      List.mem_append_right _ (by simp), by show s.nextId < s.nextId + 1; omega⟩
    refine ⟨hpn, ?_, hsn, ?_, ?_, ?_⟩
    · show ((s.games ++ [placeholderGame s next gname]).map fun r => r.id).Nodup
      rw [List.map_append, List.nodup_append]
      refine ⟨hgn, by simp, ?_⟩
      intro a ha hb
      simp only [List.map_cons, List.map_nil, List.mem_singleton] at hb
      obtain ⟨x, hx, rfl⟩ := List.mem_map.mp ha
      have hxb := hgb x hx
      have hid : (placeholderGame s next gname).id = s.nextId := rfl
      rw [hid] at hb
      omega
    · intro r2 hr2
      show r2.id < s.nextId + 1
      have := hpb r2 hr2
      omega
    · intro r2 hr2
      show r2.id < s.nextId + 1
      rcases List.mem_append.mp hr2 with hh | hh
      · have := hgb r2 hh
        omega
      · have hr2e : r2 = placeholderGame s next gname := by simpa using hh
        subst hr2e
        show s.nextId < s.nextId + 1
        omega
    · intro r2 hr2
      show r2.id < s.nextId + 1
      have := hsb r2 hr2
      omega

/-- The stat upsert keeps the store well formed and afterwards finds a stat
row for the (player, game) pair carrying exactly the parsed values. -/
theorem upsertStat_spec (s : Store) (pid gid : Nat) (g : GameStatData)
    (hWF : Store.WF s) :
    Store.WF (upsertStat s pid gid g).1 ∧
    ∃ st, firstStatRec (upsertStat s pid gid g).1 pid gid = some st ∧
      statAgrees st g := by
  obtain ⟨hpn, hgn, hsn, hpb, hgb, hsb⟩ := hWF
  cases hf : firstStatRec s pid gid with
  | some st0 =>
    have hg1 : upsertStat s pid gid g =
        ({ s with stats := s.stats.map fun r =>
            if r.id = st0.id then
              { r with elo := g.elo, rank := g.rank, played := g.played,
                       won := g.won }
            else r }, false) := by
      unfold upsertStat
      rw [hf]
    rw [hg1]
    have hfind : firstStatRec
        { s with stats := s.stats.map fun r =>
            if r.id = st0.id then
              { r with elo := g.elo, rank := g.rank, played := g.played,
                       won := g.won }
            else r } pid gid =
        some { st0 with elo := g.elo, rank := g.rank, played := g.played,
                        won := g.won } := by
      unfold firstStatRec
      dsimp only
      rw [find?_map_keyed (fun r => r.player_id == pid && r.game_id == gid)
        (fun r => r.id = st0.id)
        (fun r =>
          { r with elo := g.elo, rank := g.rank, played := g.played,
                   won := g.won }) s.stats
        (by intro b _; simp)]
      have hf2 : List.find? (fun r => r.player_id == pid && r.game_id == gid)
          s.stats = some st0 := hf
      rw [hf2, Option.map_some']
      rw [if_pos rfl]
    refine ⟨?_, ⟨{ st0 with elo := g.elo, rank := g.rank, played := g.played, won := g.won }, hfind, by simp [statAgrees]⟩⟩
    have hids : ((s.stats.map fun r =>
        if r.id = st0.id then
          { r with elo := g.elo, rank := g.rank, played := g.played,
                   won := g.won }
        else r).map fun r => r.id) = s.stats.map fun r => r.id := by
      rw [List.map_map]
      apply List.map_congr_left
      intro x _
      by_cases hx : x.id = st0.id <;> simp [Function.comp_apply, hx]
    refine ⟨hpn, hgn, ?_, hpb, hgb, ?_⟩
    · show ((s.stats.map fun r =>
          if r.id = st0.id then
            { r with elo := g.elo, rank := g.rank, played := g.played,
                     won := g.won }
          else r).map fun r => r.id).Nodup
      rw [hids]
      exact hsn
    · intro r2 hr2
      obtain ⟨x, hx, rfl⟩ := List.mem_map.mp hr2
      show (if x.id = st0.id then
          { x with elo := g.elo, rank := g.rank, played := g.played,
                   won := g.won }
        else x).id < s.nextId
      by_cases hxr : x.id = st0.id
      · rw [if_pos hxr]
        show x.id < s.nextId
        exact hsb x hx
      · rw [if_neg hxr]
        exact hsb x hx
  | none =>
    have hg1 : upsertStat s pid gid g =
        ({ s with nextId := s.nextId + 1,
                  stats := s.stats ++ [statRecOf s.nextId pid gid g] },
         true) := by
      unfold upsertStat
      rw [hf]
    rw [hg1]
    have hfind : firstStatRec
        { s with nextId := s.nextId + 1,
                 stats := s.stats ++ [statRecOf s.nextId pid gid g] }
        pid gid = some (statRecOf s.nextId pid gid g) := by
      unfold firstStatRec
      dsimp only
      rw [List.find?_append]
      have hf2 : List.find? (fun r => r.player_id == pid && r.game_id == gid)
          s.stats = none := hf
      rw [hf2, Option.none_or]
      rw [List.find?_cons_of_pos _ (by simp [statRecOf])]
    refine ⟨?_, statRecOf s.nextId pid gid g, hfind,
      by simp [statRecOf, statAgrees]⟩
    refine ⟨hpn, hgn, ?_, ?_, ?_, ?_⟩
    · show ((s.stats ++ [statRecOf s.nextId pid gid g]).map fun r => r.id).Nodup
      rw [List.map_append, List.nodup_append]
      refine ⟨hsn, by simp, ?_⟩
      intro a ha hb
      simp only [List.map_cons, List.map_nil, List.mem_singleton] at hb
      obtain ⟨x, hx, rfl⟩ := List.mem_map.mp ha
      have hxb := hsb x hx
      have hid : (statRecOf s.nextId pid gid g).id = s.nextId := rfl
      rw [hid] at hb
      omega
    · intro r2 hr2
      show r2.id < s.nextId + 1
      have := hpb r2 hr2
      omega
    · intro r2 hr2
      show r2.id < s.nextId + 1
      have := hgb r2 hr2
      omega
    · intro r2 hr2
      show r2.id < s.nextId + 1
      rcases List.mem_append.mp hr2 with hh | hh
      · have := hsb r2 hh
        omega
      · have hr2e : r2 = statRecOf s.nextId pid gid g := by simpa using hh
        subst hr2e
        show s.nextId < s.nextId + 1
        omega

/-- A stat upsert for one (player, game) pair does not change the first stat
row found for any other pair. -/
theorem upsertStat_other (s : Store) (pid gid pid2 gid2 : Nat)
    (g : GameStatData) (hWF : Store.WF s)
    (hne : ¬ (pid2 = pid ∧ gid2 = gid)) :
    firstStatRec (upsertStat s pid gid g).1 pid2 gid2 =
      firstStatRec s pid2 gid2 := by
  obtain ⟨hpn, hgn, hsn, hpb, hgb, hsb⟩ := hWF
  cases hf : firstStatRec s pid gid with
  | some st0 =>
    have hg1 : upsertStat s pid gid g =
        ({ s with stats := s.stats.map fun r =>
            if r.id = st0.id then
              { r with elo := g.elo, rank := g.rank, played := g.played,
                       won := g.won }
            else r }, false) := by
      unfold upsertStat
      rw [hf]
    rw [hg1]
    unfold firstStatRec
    dsimp only
    rw [find?_map_keyed (fun r => r.player_id == pid2 && r.game_id == gid2)
      (fun r => r.id = st0.id)
      (fun r =>
        { r with elo := g.elo, rank := g.rank, played := g.played,
                 won := g.won }) s.stats
      (by intro b _; simp)]
    cases h2 : List.find? (fun r => r.player_id == pid2 && r.game_id == gid2)
        s.stats with
    | none => rfl
    | some st2 =>
      rw [Option.map_some']
      rw [if_neg ?_]
      intro hid
      have hmem0 := List.mem_of_find?_eq_some hf
      have hmem2 := List.mem_of_find?_eq_some h2
      have heq : st2 = st0 := List.inj_on_of_nodup_map hsn hmem2 hmem0 hid
      subst heq
      have hk0 := List.find?_some hf
      have hk2 := List.find?_some h2
      simp only [Bool.and_eq_true, beq_iff_eq] at hk0 hk2
      exact hne ⟨hk2.1.symm.trans hk0.1, hk2.2.symm.trans hk0.2⟩
  | none =>
    have hg1 : upsertStat s pid gid g =
        ({ s with nextId := s.nextId + 1,
                  stats := s.stats ++ [statRecOf s.nextId pid gid g] },
         true) := by
      unfold upsertStat
      rw [hf]
    rw [hg1]
    unfold firstStatRec
    dsimp only
    rw [List.find?_append]
    have hone : List.find? (fun r => r.player_id == pid2 && r.game_id == gid2)
        [statRecOf s.nextId pid gid g] = none := by
      rw [List.find?_cons_of_neg _ ?_, List.find?_nil]
      simp only [statRecOf, Bool.and_eq_true, beq_iff_eq, not_and]
      intro h1 h2
      exact hne ⟨h1.symm, h2.symm⟩
    rw [hone]
    cases List.find? (fun r => r.player_id == pid2 && r.game_id == gid2)
      s.stats <;> rfl

theorem gsLoop_cons_fst (s : Store) (next : Int) (pid : Nat)
    (g : GameStatData) (gs : List GameStatData) :
    (gsLoop s next pid (g :: gs)).1 =
      (gsLoop (upsertStat (upsertGame s next g.game_name).1 pid
        (upsertGame s next g.game_name).2.1 g).1
        (upsertGame s next g.game_name).2.2.1 pid gs).1 := rfl

/-- A game/stat pair that the remaining stat rows do not name again keeps its
first-found game row and stat row through the rest of the loop. -/
theorem gsLoop_preserve (pid : Nat) :
    ∀ (gs : List GameStatData) (s : Store) (next : Int),
      Store.WF s →
      ∀ (gr : GameRec) (st : StatRec),
        gr ∈ s.games →
        firstGameRec s gr.name = some gr →
        firstStatRec s pid gr.id = some st →
        gr.name ∉ (gs.map fun g2 => g2.game_name) →
        firstGameRec (gsLoop s next pid gs).1 gr.name = some gr ∧
        firstStatRec (gsLoop s next pid gs).1 pid gr.id = some st
  | [], s, next => by
    intro _ gr st _ hg hst _
    exact ⟨hg, hst⟩
  | g :: gs, s, next => by
    intro hWF gr st hmem hg hst hnot
    simp only [List.map_cons, List.mem_cons, not_or] at hnot
    obtain ⟨hWF1, hpl1, hstats1, ⟨pre, hpre⟩, gr2, hgr2, hgr2id, hgr2mem,
      hgr2lt⟩ := upsertGame_spec s next g.game_name hWF
    have hg1 : firstGameRec (upsertGame s next g.game_name).1 gr.name =
        some gr := by
      unfold firstGameRec at hg ⊢
      rw [hpre]
      exact find?_prefix_some hg pre
    have hmem1 : gr ∈ (upsertGame s next g.game_name).1.games := by
      rw [hpre]
      exact List.mem_append_left _ hmem
    have hst1 : firstStatRec (upsertGame s next g.game_name).1 pid gr.id =
        firstStatRec s pid gr.id := firstStatRec_congr hstats1 pid gr.id
    have hgr2name : gr2.name = g.game_name := by
      simpa using List.find?_some hgr2
    have hidne : gr.id ≠ gr2.id := by
      intro he
      have heq : gr = gr2 := List.inj_on_of_nodup_map hWF1.2.1 hmem1 hgr2mem he
      exact hnot.1 (by rw [heq, hgr2name])
    have hfr := upsertStat_other (upsertGame s next g.game_name).1 pid
      (upsertGame s next g.game_name).2.1 pid gr.id g hWF1 (by
        intro hcon
        exact hidne (hcon.2.trans hgr2id.symm))
    obtain ⟨hWF2, -⟩ := upsertStat_spec (upsertGame s next g.game_name).1 pid
      (upsertGame s next g.game_name).2.1 g hWF1
    have hg2 : firstGameRec (upsertStat (upsertGame s next g.game_name).1 pid
        (upsertGame s next g.game_name).2.1 g).1 gr.name = some gr := by
      rw [firstGameRec_congr (upsertStat_games _ _ _ _)]
      exact hg1
    have hmem2 : gr ∈ (upsertStat (upsertGame s next g.game_name).1 pid
        (upsertGame s next g.game_name).2.1 g).1.games := by
      rw [upsertStat_games]
      exact hmem1
    have hst2 : firstStatRec (upsertStat (upsertGame s next g.game_name).1 pid
        (upsertGame s next g.game_name).2.1 g).1 pid gr.id = some st := by
      rw [hfr, hst1]
      exact hst
    have hrec := gsLoop_preserve pid gs
      (upsertStat (upsertGame s next g.game_name).1 pid
        (upsertGame s next g.game_name).2.1 g).1
      (upsertGame s next g.game_name).2.2.1 hWF2 gr st hmem2 hg2 hst2 hnot.2
    rw [gsLoop_cons_fst]
    exact hrec

/-- Under distinct game names, after the stat loop every processed stat row is
found back through its game's name with exactly the parsed values; the loop
keeps the store well formed and never touches the player table. -/
theorem gsLoop_roundtrip (pid : Nat) :
    ∀ (gs : List GameStatData) (s : Store) (next : Int),
      Store.WF s →
      ((gs.map fun g2 => g2.game_name)).Nodup →
      Store.WF (gsLoop s next pid gs).1 ∧
      (gsLoop s next pid gs).1.players = s.players ∧
      ∀ g ∈ gs, ∃ gr st2,
        firstGameRec (gsLoop s next pid gs).1 g.game_name = some gr ∧
        firstStatRec (gsLoop s next pid gs).1 pid gr.id = some st2 ∧
        statAgrees st2 g
  | [], s, next => by
    intro hWF _
    exact ⟨hWF, rfl, by simp⟩
  | g :: gs, s, next => by
    intro hWF hnd
    simp only [List.map_cons, List.nodup_cons] at hnd
    obtain ⟨hWF1, hpl1, hstats1, ⟨pre, hpre⟩, gr, hgr, hgrid, hgrmem, hgrlt⟩ :=
      upsertGame_spec s next g.game_name hWF
    obtain ⟨hWF2, st2, hst2, hag2⟩ :=
      upsertStat_spec (upsertGame s next g.game_name).1 pid
        (upsertGame s next g.game_name).2.1 g hWF1
    have hgg2 : firstGameRec (upsertStat (upsertGame s next g.game_name).1 pid
        (upsertGame s next g.game_name).2.1 g).1 g.game_name = some gr := by
      rw [firstGameRec_congr (upsertStat_games _ _ _ _)]
      exact hgr
    have hmem2 : gr ∈ (upsertStat (upsertGame s next g.game_name).1 pid
        (upsertGame s next g.game_name).2.1 g).1.games := by
      rw [upsertStat_games]
      exact hgrmem
    have hgrname : gr.name = g.game_name := by
      simpa using List.find?_some hgr
    have hst2i : firstStatRec (upsertStat (upsertGame s next g.game_name).1 pid
        (upsertGame s next g.game_name).2.1 g).1 pid gr.id = some st2 := by
      rw [hgrid]
      exact hst2
    have hpres := gsLoop_preserve pid gs
      (upsertStat (upsertGame s next g.game_name).1 pid
        (upsertGame s next g.game_name).2.1 g).1
      (upsertGame s next g.game_name).2.2.1 hWF2 gr st2 hmem2
      (by rw [hgrname]; exact hgg2) hst2i (by rw [hgrname]; exact hnd.1)
    obtain ⟨hWFf, hplf, hrest⟩ := gsLoop_roundtrip pid gs
      (upsertStat (upsertGame s next g.game_name).1 pid
        (upsertGame s next g.game_name).2.1 g).1
      (upsertGame s next g.game_name).2.2.1 hWF2 hnd.2
    rw [gsLoop_cons_fst]
    refine ⟨hWFf, ?_, ?_⟩
    · rw [hplf, upsertStat_players, hpl1]
    · intro g2 hgm
      rcases List.mem_cons.mp hgm with he | hmem
      · subst he
        refine ⟨gr, st2, ?_, hpres.2, hag2⟩
        have hx := hpres.1
        rw [hgrname] at hx
        exact hx
      · exact hrest g2 hmem

/-- The created/updated flag of the player upsert is the negated presence of
the player's business key before the call. -/
theorem upsertPlayer_flag (s : Store) (p : PlayerData) :
    (upsertPlayer s p).2.2 = !(firstPlayerRec s p.bga_player_id).isSome := by
  unfold upsertPlayer
  cases h : firstPlayerRec s p.bga_player_id <;> rfl

/-- One import of a single parsed player: the store stays well formed, the
round-trip guarantee holds for that player, and the created/updated counters
report whether the player's business key was already present. -/
theorem import_player_stats_single (s : Store) (p : PlayerData)
    (hWF : Store.WF s)
    (hnd : ((p.game_stats.map fun g => g.game_name)).Nodup) :
    Store.WF (import_player_stats s [p]).1 ∧
    roundTrip (import_player_stats s [p]).1 p ∧
    (import_player_stats s [p]).2.players_created =
      (if (firstPlayerRec s p.bga_player_id).isSome = true then 0 else 1) ∧
    (import_player_stats s [p]).2.players_updated =
      (if (firstPlayerRec s p.bga_player_id).isSome = true then 1 else 0) := by
  obtain ⟨hWF1, rec, hrec, hrecid, hagr⟩ := upsertPlayer_spec s p hWF
  obtain ⟨hWFf, hplf, hall⟩ := gsLoop_roundtrip (upsertPlayer s p).2.1
    p.game_stats (upsertPlayer s p).1 (nextPlaceholder0 s) hWF1 hnd
  have hkey1 : (import_player_stats s [p]).1 =
      (gsLoop (upsertPlayer s p).1 (nextPlaceholder0 s) (upsertPlayer s p).2.1
        p.game_stats).1 := rfl
  refine ⟨?_, ?_, ?_, ?_⟩
  · rw [hkey1]
    exact hWFf
  · rw [hkey1]
    refine ⟨rec, ?_, hagr, ?_⟩
    · rw [firstPlayerRec_congr hplf]
      exact hrec
    · intro g hg
      obtain ⟨gr, st2, h1, h2, h3⟩ := hall g hg
      exact ⟨gr, st2, h1, by rw [hrecid]; exact h2, h3⟩
  · have hc : (import_player_stats s [p]).2.players_created =
        (if (upsertPlayer s p).2.2 = true then 1 else 0) + 0 := rfl
    rw [hc, upsertPlayer_flag]
    cases hio : (firstPlayerRec s p.bga_player_id).isSome <;> simp
  · have hu : (import_player_stats s [p]).2.players_updated =
        (if (upsertPlayer s p).2.2 = true then 0 else 1) + 0 := rfl
    rw [hu, upsertPlayer_flag]
    cases hio : (firstPlayerRec s p.bga_player_id).isSome <;> simp

/-- C3: for a valid single-player player-stats document whose game rows name
distinct games, importing it a second time into the store produced by the
first import reports `players_created = 0` and `players_updated = 1` (the
player row is updated in place, not duplicated), and after the second call the
stored player row and every stored game stat row carry exactly the document's
parsed attribute values. -/
theorem c3_reimport_idempotent (s : Store) (raw : String) (p : PlayerData)
    (hWF : Store.WF s)
    (hparse : parse_player_stats raw = Except.ok [p])
    (hnd : ((p.game_stats.map fun g => g.game_name)).Nodup) :
    (import_player_stats (import_player_stats s [p]).1 [p]).2.players_created
      = 0 ∧
    (import_player_stats (import_player_stats s [p]).1 [p]).2.players_updated
      = 1 ∧
    roundTrip (import_player_stats (import_player_stats s [p]).1 [p]).1 p := by
  obtain ⟨hWF1, hrt1, -, -⟩ := import_player_stats_single s p hWF hnd
  obtain ⟨-, hrt2, hc, hu⟩ :=
    import_player_stats_single (import_player_stats s [p]).1 p hWF1 hnd
  obtain ⟨r, hr, -⟩ := hrt1
  have hsome : (firstPlayerRec (import_player_stats s [p]).1
      p.bga_player_id).isSome = true := by
    rw [hr]
    rfl
  refine ⟨?_, ?_, hrt2⟩
  · rw [hc, if_pos hsome]
  · rw [hu, if_pos hsome]

/-- Witness for C3 on the spec's own round-trip document: re-importing the
parsed JohnDoe record into the store left by the first import counts 0
created / 1 updated and reproduces the document's values exactly. -/
theorem c3_reimport_idempotent_witness :
    (import_player_stats (import_player_stats emptyStore [c2player]).1
      [c2player]).2.players_created = 0 ∧
    (import_player_stats (import_player_stats emptyStore [c2player]).1
      [c2player]).2.players_updated = 1 ∧
    roundTrip (import_player_stats (import_player_stats emptyStore
      [c2player]).1 [c2player]).1 c2player :=
  c3_reimport_idempotent emptyStore c2doc c2player
    (by refine ⟨?_, ?_, ?_, ?_, ?_, ?_⟩ <;> simp [emptyStore])
    (by decide) (by decide)

end BgaStats
